import Mathlib

/-!
Verification of the UNSPSC hierarchical classification core
(`unspsc_full_hierarchy_system`): a shallow embedding of the four level
classifiers (`segment_classifier.py`, `family_classifier.py`,
`class_classifier.py`, `commodity_classifier.py`), the database access layer
(`unspsc_database.py`) and the orchestration chain
(`classification_chain.py`), together with theorems checking the
natural-language specification against this embedding.

The external collaborators (Snowflake-backed taxonomy repository and the
language model) are modelled as pure function parameters: the repository as a
`Repo` structure of lookup functions, the oracle as an `Oracle` structure
mapping a prompt's ingredients to an already-parsed JSON payload
(`Option Parsed`, where `none` models an unparseable / exceptional response,
which in the source funnels into the same fallback path).
-/

namespace UNSPSC

/-! ## Python-style string primitives

The source manipulates Python `str` values; we model the handful of
operations it uses (`zfill`, `isdigit`, `startswith`, `in` (substring),
`lower`, `split`, `lstrip('0')`, slicing) on Lean `String`, which is
definitionally a packed `List Char`. -/

/-- Python `needle in haystack` on lists of characters. -/
def infixOfList (pat : List Char) : List Char → Bool
  | [] => pat.isEmpty
  | c :: rest => pat.isPrefixOf (c :: rest) || infixOfList pat rest

/-- Python substring test `pat in s`. -/
def pyContains (s pat : String) : Bool := infixOfList pat.data s.data

/-- Python `s.startswith(pre)`. -/
def pyStartsWith (s pre : String) : Bool := pre.data.isPrefixOf s.data

/-- Python `s.isdigit()` (for plain ASCII digit strings). -/
def pyIsDigit (s : String) : Bool := !s.data.isEmpty && s.data.all (·.isDigit)

/-- Python `s.zfill(w)` for unsigned strings (the codes handled by the
source never carry a sign). -/
def zfill (s : String) (w : Nat) : String :=
  ⟨List.replicate (w - s.data.length) '0' ++ s.data⟩

/-- Python `s.lstrip('0')`. -/
def lstripZeros (s : String) : String := ⟨s.data.dropWhile (· == '0')⟩

/-- Python slicing `s[:n]`. -/
def strTake (s : String) (n : Nat) : String := ⟨s.data.take n⟩

/-- Python `s.lower()` (ASCII). -/
def pyLower (s : String) : String := ⟨s.data.map Char.toLower⟩

/-- Python `s.upper()` (ASCII). -/
def pyUpper (s : String) : String := ⟨s.data.map Char.toUpper⟩

/-- Helper for `pySplit`: accumulate the current word (reversed). -/
def pySplitAux : List Char → List Char → List String
  | [], acc => if acc.isEmpty then [] else [⟨acc.reverse⟩]
  | c :: rest, acc =>
    if c.isWhitespace then
      if acc.isEmpty then pySplitAux rest []
      else (⟨acc.reverse⟩ : String) :: pySplitAux rest []
    else pySplitAux rest (c :: acc)

/-- Python `s.split()`: split on whitespace runs, dropping empty pieces. -/
def pySplit (s : String) : List String := pySplitAux s.data []

/-- The distinct words of a Python `set(s.split())`, in first-occurrence
order (only membership and cardinality of the set are ever used). -/
def wordSet (s : String) : List String := (pySplit s).eraseDups

/-- Cardinality of `(set a ∩ set b) - stops` for `a` already deduplicated. -/
def interCount (a b stops : List String) : Nat :=
  (a.filter (fun w => b.contains w && !stops.contains w)).length

/-! ## Data model -/

/-- One `{code, description}` row as returned by the taxonomy repository. -/
structure Cand where
  code : String
  description : String
deriving DecidableEq

/-- A successfully JSON-parsed oracle answer: the fields the validators read
(`*_code`, `confidence`, `reasoning`), each `none` when the key is absent
(Python `dict.get` semantics). -/
structure Parsed where
  code : Option String := none
  confidence : Option String := none
  reasoning : Option String := none
deriving DecidableEq

/-- The complete hierarchy extracted from an 8-digit commodity code by
`UNSPSCDatabase._parse_hierarchy_from_commodity_code`. -/
structure Hier where
  seg : Cand
  fam : Cand
  cls : Cand
  comm : Cand
deriving DecidableEq

/-- A per-level classification outcome dict.  Fields that some source dicts
omit (`fallback_to_family`, `fallback_to_class`, `complete_hierarchy`) carry
their Python-falsy defaults, matching how the chain reads them via `get`. -/
structure LevelOutcome where
  success : Bool
  error : Option String := none
  code : Option String := none
  descr : Option String := none
  confidence : String
  reasoning : Option String := none
  fallbackToFamily : Bool := false
  fallbackToClass : Bool := false
  completeHierarchy : Option Hier := none
deriving DecidableEq

/-- The decision dict returned by
`UNSPSCClassificationChain._reflect_on_commodity_classification`. -/
structure ReflectDecision where
  useCommodity : Bool
  code : Option String := none
  descr : Option String := none
  confidence : String
  hierarchy : Option Hier := none
  reasoning : String
deriving DecidableEq

/-- The mutable `ClassificationResult` dataclass (the fields the
classification core reads or writes; the enrichment fields are external). -/
structure CRes where
  success : Bool := false
  segmentCode : Option String := none
  segmentDescr : Option String := none
  familyCode : Option String := none
  familyDescr : Option String := none
  classCode : Option String := none
  classDescr : Option String := none
  commodityCode : Option String := none
  commodityDescr : Option String := none
  fullHierarchyPath : String := ""
  completeCode : Option String := none
  levelsAchieved : List String := []
  breakdown : List (String × String × String × Nat) := []
  finalCode : Option String := none
  finalDescr : Option String := none
  classificationLevel : String := "none"
  confidence : String := "Unknown"
  reasoning : String := ""
  errors : List String := []
deriving DecidableEq

/-- Python truthiness of an optional string field. -/
def truthy (o : Option String) : Bool := o.getD "" != ""

/-! ## External collaborators -/

/-- The taxonomy repository: raw rows behind each query of
`UNSPSCDatabase`, before the zero-padding and prefix filtering the
database layer applies. -/
structure Repo where
  segmentsRaw : List Cand
  familiesRaw : String → List Cand
  classesRaw : String → List Cand
  commoditiesRaw : String → List Cand
  /-- Row behind `get_commodity_with_hierarchy`'s exact-code query. -/
  commodityRow : String → Option Cand
  /-- Title behind `_get_level_description`'s query, by (level column,
  zero-padded 8-digit code); `none` when no row matches. -/
  levelTitle : String → String → Option String

/-- The language oracle, already composed with response cleaning and JSON
parsing (source steps: strip fences, locate braces, `json.loads`).  Each
function receives the data embedded in the prompt; `none` models a response
with no parseable payload (or a raised exception), which the source routes
to the same fallback. -/
structure Oracle where
  seg : String → List Cand → Option Parsed
  fam : String → String → List Cand → Option Parsed
  cls : String → String → List Cand → Option Parsed
  comm : String → String → List Cand → Option Parsed

/-! ## Database layer (`database/unspsc_database.py`) -/

/-- `UNSPSCDatabase.get_all_segments`: zero-pad each code to 2 digits. -/
def dbGetAllSegments (r : Repo) : List Cand :=
  r.segmentsRaw.map (fun c => ⟨zfill c.code 2, c.description⟩)

/-- `UNSPSCDatabase.get_families_by_segment`: zero-pad to 4 digits and keep
only codes extending the segment's 2-digit code. -/
def dbGetFamilies (r : Repo) (segCode : String) : List Cand :=
  ((r.familiesRaw segCode).map (fun c => ⟨zfill c.code 4, c.description⟩)).filter
    (fun c => pyStartsWith c.code (zfill segCode 2))

/-- `UNSPSCDatabase.get_classes_by_family`. -/
def dbGetClasses (r : Repo) (famCode : String) : List Cand :=
  ((r.classesRaw famCode).map (fun c => ⟨zfill c.code 6, c.description⟩)).filter
    (fun c => pyStartsWith c.code (zfill famCode 4))

/-- `UNSPSCDatabase.get_commodities_by_class`. -/
def dbGetCommodities (r : Repo) (clsCode : String) : List Cand :=
  ((r.commoditiesRaw clsCode).map (fun c => ⟨zfill c.code 8, c.description⟩)).filter
    (fun c => pyStartsWith c.code (zfill clsCode 6))

/-- Width used by `_get_level_description`'s slicing. -/
def levelWidth (col : String) : Nat :=
  if col = "SEGMENT" then 2 else if col = "FAMILY" then 4 else 6

/-- `UNSPSCDatabase._get_level_description`: the returned code is
`padded_code.lstrip('0')` truncated to the level width. -/
def levelDesc (r : Repo) (col padded : String) : Cand :=
  { code := strTake (lstripZeros padded) (levelWidth col)
    description :=
      match r.levelTitle col padded with
      | some t => if t != "" then t else "Unknown " ++ pyLower col
      | none => "Unknown " ++ pyLower col }

/-- `UNSPSCDatabase._parse_hierarchy_from_commodity_code`. -/
def parseHier (r : Repo) (code8 descr : String) : Hier :=
  let full := zfill code8 8
  { seg := levelDesc r "SEGMENT" (strTake full 2 ++ "000000")
    fam := levelDesc r "FAMILY" (strTake full 4 ++ "0000")
    cls := levelDesc r "CLASS" (strTake full 6 ++ "00")
    comm := ⟨full, descr⟩ }

/-- `UNSPSCDatabase.get_commodity_with_hierarchy`: `none` models the
`success: False` dict (code not found). -/
def dbGetCommodityWithHierarchy (r : Repo) (code : String) : Option Hier :=
  match r.commodityRow (zfill code 8) with
  | some row =>
      some (parseHier r (zfill row.code 8)
        (if row.description = "" then "Unknown commodity" else row.description))
  | none => none

/-! ## Segment classifier (`agents/segment_classifier.py`)

Each classifier takes the candidate list its instance cache returns
(`_get_available_segments` etc.); the cached fetch itself is modelled
separately for the idempotence claim. -/

/-- The hard-coded keyword map of `SegmentClassifier.get_segment_fallback`. -/
def segmentKeywordMap : List (String × List String) :=
  [ ("40", ["pump", "valve", "distribution", "conditioning", "flow",
            "hydraulic", "pneumatic"]),
    ("24", ["machinery", "equipment", "processing", "industrial",
            "manufacturing"]),
    ("32", ["electronic", "sensor", "controller", "circuit", "digital"]),
    ("42", ["medical", "healthcare", "diagnostic", "surgical"]),
    ("23", ["component", "supply", "part", "fitting", "bearing"]) ]

/-- First maximum of an association list by value (Python
`max(d.items(), key=lambda x: x[1])` over an insertion-ordered dict). -/
def firstMaxBySnd (h : String × Nat) (t : List (String × Nat)) : String :=
  (t.foldl (fun b p => if p.2 > b.2 then p else b) h).1

/-- The score dict of `get_segment_fallback`: keyword-map entries whose
keywords hit the (lowered) summary, with their hit counts. -/
def segScores (summary : String) : List (String × Nat) :=
  segmentKeywordMap.filterMap (fun p =>
    let s := (p.2.filter (fun kw => pyContains (pyLower summary) kw)).length
    if s > 0 then some (p.1, s) else none)

/-- `SegmentClassifier.get_segment_fallback`: keyword-map scoring against
the summary, else the hard-coded default segment 23. -/
def segmentFallback (segs : List Cand) (summary : String) : LevelOutcome :=
  match segScores summary with
  | [] =>
      { success := true, code := some "23",
        descr := some "Manufacturing Components and Supplies",
        confidence := "Very Low", reasoning := some "Default fallback segment" }
  | h :: t =>
      let best := firstMaxBySnd h t
      let d := ((segs.find? (fun s => s.code == best)).map
        (·.description)).getD "Unknown segment"
      { success := true, code := some best, descr := some d,
        confidence := "Low",
        reasoning := some "Fallback keyword-based classification" }

/-- The `success: False, confidence: "CONFUSED"` dict each validator
returns on the oracle's CONFUSED sentinel. -/
def confusedOutcome (err : String) (d : Parsed) (ffam : Bool := false) :
    LevelOutcome :=
  { success := false, error := some err, confidence := "CONFUSED",
    reasoning := some (d.reasoning.getD "Multiple options detected"),
    fallbackToFamily := ffam }

/-- Is the parsed confidence the CONFUSED sentinel
(`classification_data.get("confidence", "").upper() == "CONFUSED"`)? -/
def isConfused (d : Parsed) : Bool := pyUpper (d.confidence.getD "") == "CONFUSED"

/-- Does the parsed code fail the format check
`not code or not code.isdigit() or len(code.zfill(w)) != w`? -/
def badFormat (d : Parsed) (w : Nat) : Bool :=
  let c := d.code.getD ""
  c == "" || !pyIsDigit c || (zfill c w).data.length != w

/-- `SegmentClassifier._validate_segment_classification`. -/
def validateSegment (segs : List Cand) (d : Parsed) : LevelOutcome :=
  if isConfused d then
    confusedOutcome "Multiple segments seem equally valid - classification confused" d
  else if badFormat d 2 then segmentFallback segs ""
  else
    let code := zfill (d.code.getD "") 2
    match segs.find? (fun s => s.code == code) with
    | none => segmentFallback segs ""
    | some s =>
        { success := true, code := some code, descr := some s.description,
          confidence := d.confidence.getD "Medium",
          reasoning := some (d.reasoning.getD "") }

/-- `SegmentClassifier.classify_segment`, with the candidate fetch factored
out and the oracle call + parsing folded into `o.seg`. -/
def classifySegmentOn (o : Oracle) (segs : List Cand) (summary : String) :
    LevelOutcome :=
  if segs.isEmpty then
    { success := false, error := some "No UNSPSC segments available",
      confidence := "None" }
  else
    match o.seg summary (segs.take 20) with
    | none => segmentFallback segs summary
    | some d => validateSegment segs d

/-! ## Family classifier (`agents/family_classifier.py`) -/

/-- `FamilyClassifier.get_family_fallback`: the segment-40 pump special
case, else the first family in repository order. -/
def familyFallback (fams : List Cand) (summary segCode : String) :
    LevelOutcome :=
  match fams with
  | [] =>
      { success := false,
        error := some ("No families available for segment " ++ segCode),
        confidence := "None" }
  | f0 :: _ =>
      let general : LevelOutcome :=
        { success := true, code := some f0.code, descr := some f0.description,
          confidence := "Low",
          reasoning := some "General fallback - first available family" }
      if segCode == "40" &&
          (["pump", "hydraulic", "compressor"].any
            (fun w => pyContains (pyLower summary) w)) then
        match fams.find? (fun f => pyContains (pyLower f.description) "pump") with
        | some f =>
            { success := true, code := some f.code, descr := some f.description,
              confidence := "Medium",
              reasoning := some "Smart fallback based on pump keywords" }
        | none => general
      else general

/-- `FamilyClassifier._validate_family_classification`. -/
def validateFamily (fams : List Cand) (d : Parsed) (segCode : String) :
    LevelOutcome :=
  if isConfused d then
    confusedOutcome "Multiple families seem equally valid - classification confused" d
  else if badFormat d 4 then familyFallback fams "" segCode
  else
    let code := zfill (d.code.getD "") 4
    if !pyStartsWith code (zfill segCode 2) then familyFallback fams "" segCode
    else
      match fams.find? (fun f => f.code == code) with
      | none => familyFallback fams "" segCode
      | some f =>
          { success := true, code := some code, descr := some f.description,
            confidence := d.confidence.getD "Medium",
            reasoning := some (d.reasoning.getD "") }

/-- `FamilyClassifier.classify_family` given the fetched candidates. -/
def classifyFamilyOn (o : Oracle) (fams : List Cand) (summary segCode : String) :
    LevelOutcome :=
  if fams.isEmpty then
    { success := false,
      error := some ("No UNSPSC families available for segment " ++ segCode),
      confidence := "None" }
  else
    match o.fam summary segCode (fams.take 10) with
    | none => familyFallback fams summary segCode
    | some d => validateFamily fams d segCode

/-! ## Class classifier (`agents/class_classifier.py`) -/

/-- Python dict assignment `d[k] = v`: update in place if the key exists,
else append (insertion order preserved). -/
def dictInsert (d : List (String × Nat)) (k : String) (v : Nat) :
    List (String × Nat) :=
  if d.any (fun p => p.1 == k) then
    d.map (fun p => if p.1 == k then (p.1, v) else p)
  else d ++ [(k, v)]

/-- The keyword-overlap score of one candidate description against the
(lowered) summary, with a stop-word set removed (`get_class_fallback` /
`get_commodity_fallback` loop body). -/
def fbScore (summaryLower : String) (candDescr : String) (stops : List String) :
    Nat :=
  interCount (wordSet summaryLower) (wordSet (pyLower candDescr)) stops

/-- The score dict built by the fallback loop (only candidates with a
positive score are inserted). -/
def fbScoresDict (cands : List Cand) (summaryLower : String)
    (stops : List String) : List (String × Nat) :=
  cands.foldl (fun acc c =>
    let s := fbScore summaryLower c.description stops
    if s > 0 then dictInsert acc c.code s else acc) []

/-- Stop words of `ClassClassifier.get_class_fallback`. -/
def classStops : List String :=
  ["and", "or", "the", "of", "for", "in", "to", "a", "an",
   "components", "supplies"]

/-- Stop words of `CommodityClassifier.get_commodity_fallback`. -/
def commodityStops : List String :=
  ["and", "or", "the", "of", "for", "in", "to", "a", "an",
   "components", "supplies", "equipment"]

/-- `ClassClassifier.get_class_fallback`. -/
def classFallback (cands : List Cand) (summary famCode : String) :
    LevelOutcome :=
  match cands with
  | [] =>
      { success := false,
        error := some ("No classes available for family " ++ famCode),
        confidence := "None", fallbackToFamily := true }
  | c0 :: _ =>
      match fbScoresDict cands (pyLower summary) classStops with
      | [] =>
          { success := true, code := some c0.code,
            descr := some c0.description, confidence := "Very Low",
            reasoning := some "Desperate fallback - first available class" }
      | h :: t =>
          let best := firstMaxBySnd h t
          let d := ((cands.find? (fun c => c.code == best)).map
            (·.description)).getD "Unknown class"
          { success := true, code := some best, descr := some d,
            confidence := "Low",
            reasoning := some "Fallback keyword-based classification" }

/-- The explicit failure dict `ClassClassifier._validate_class_classification`
returns on a format / containment / membership violation (no fallback). -/
def classValidationFailure (err : String) : LevelOutcome :=
  { success := false, error := some err, confidence := "None",
    fallbackToFamily := true }

/-- `ClassClassifier._validate_class_classification`. -/
def validateClass (cands : List Cand) (d : Parsed) (famCode : String) :
    LevelOutcome :=
  if isConfused d then
    confusedOutcome "Multiple classes seem equally valid - classification confused"
      d true
  else if badFormat d 6 then
    classValidationFailure ("Invalid class code format: " ++ d.code.getD "")
  else
    let code := zfill (d.code.getD "") 6
    if !pyStartsWith code (zfill famCode 4) then
      classValidationFailure
        ("Class " ++ code ++ " doesn't belong to family " ++ famCode)
    else
      match cands.find? (fun c => c.code == code) with
      | none =>
          classValidationFailure
            ("Class code " ++ code ++ " not found in family " ++ famCode)
      | some c =>
          { success := true, code := some code, descr := some c.description,
            confidence := d.confidence.getD "Medium",
            reasoning := some (d.reasoning.getD "") }

/-- `ClassClassifier.classify_class` given the fetched candidates. -/
def classifyClassOn (o : Oracle) (cands : List Cand) (summary famCode : String) :
    LevelOutcome :=
  if cands.isEmpty then
    { success := false,
      error := some ("No UNSPSC classes available for family " ++ famCode),
      confidence := "None", fallbackToFamily := true }
  else
    match o.cls summary famCode (cands.take 12) with
    | none => classFallback cands summary famCode
    | some d => validateClass cands d famCode

/-! ## Commodity classifier (`agents/commodity_classifier.py`) -/

/-- `CommodityClassifier.get_commodity_fallback`. -/
def commodityFallback (cands : List Cand) (summary clsCode : String) :
    LevelOutcome :=
  match cands with
  | [] =>
      { success := false,
        error := some ("No commodities available for class " ++ clsCode),
        confidence := "None", fallbackToClass := true }
  | c0 :: _ =>
      match fbScoresDict cands (pyLower summary) commodityStops with
      | [] =>
          { success := true, code := some c0.code,
            descr := some c0.description, confidence := "Very Low",
            reasoning := some "Desperate fallback - first available commodity" }
      | h :: t =>
          let best := firstMaxBySnd h t
          let d := ((cands.find? (fun c => c.code == best)).map
            (·.description)).getD "Unknown commodity"
          { success := true, code := some best, descr := some d,
            confidence := "Low",
            reasoning := some "Fallback keyword-based classification" }

/-- `CommodityClassifier._validate_and_get_hierarchy` (needs the repo for
the complete-hierarchy lookup, done against a fresh database handle). -/
def validateCommodity (r : Repo) (cands : List Cand) (d : Parsed)
    (clsCode : String) : LevelOutcome :=
  if isConfused d then
    confusedOutcome
      "Multiple commodities seem equally valid - classification confused" d
  else if badFormat d 8 then commodityFallback cands "" clsCode
  else
    let code := zfill (d.code.getD "") 8
    match cands.find? (fun c => c.code == code) with
    | none => commodityFallback cands "" clsCode
    | some c =>
        { success := true, code := some code, descr := some c.description,
          confidence := d.confidence.getD "Medium",
          reasoning := some (d.reasoning.getD ""),
          completeHierarchy := dbGetCommodityWithHierarchy r code }

/-- `CommodityClassifier.classify_commodity` given the fetched candidates. -/
def classifyCommodityOn (o : Oracle) (r : Repo) (cands : List Cand)
    (summary clsCode : String) : LevelOutcome :=
  if cands.isEmpty then
    { success := false,
      error := some ("No UNSPSC commodities available for class " ++ clsCode),
      confidence := "None" }
  else
    match o.comm summary clsCode (cands.take 15) with
    | none => commodityFallback cands summary clsCode
    | some d => validateCommodity r cands d clsCode

/-! ## Uncached classifier entry points (fresh candidate fetch) -/

def classifySegment (o : Oracle) (r : Repo) (summary : String) : LevelOutcome :=
  classifySegmentOn o (dbGetAllSegments r) summary

def classifyFamily (o : Oracle) (r : Repo) (summary segCode : String) :
    LevelOutcome :=
  classifyFamilyOn o (dbGetFamilies r segCode) summary segCode

def classifyClass (o : Oracle) (r : Repo) (summary famCode : String) :
    LevelOutcome :=
  classifyClassOn o (dbGetClasses r famCode) summary famCode

def classifyCommodity (o : Oracle) (r : Repo) (summary clsCode : String) :
    LevelOutcome :=
  classifyCommodityOn o r (dbGetCommodities r clsCode) summary clsCode

/-! ## Commodity reflection
(`UNSPSCClassificationChain._reflect_on_commodity_classification`) -/

/-- The generic-term blocklist of the Medium-confidence branch. -/
def genericTerms : List String :=
  ["other", "miscellaneous", "general", "various", "unspecified"]

/-- The stop-word list of the Low-confidence keyword-overlap branch. -/
def reflectStops : List String :=
  ["with", "from", "that", "this", "they", "have", "were"]

/-- The meaningful keyword overlap of the Low-confidence branch: distinct
common words of the lowered summary and commodity description, of length
`> 3` and not stop words. -/
def meaningfulOverlap (summary descr : String) : List String :=
  (wordSet (pyLower summary)).filter (fun w =>
    (wordSet (pyLower descr)).contains w && w.data.length > 3 &&
      !reflectStops.contains w)

/-- `_reflect_on_commodity_classification` (the `result` parameter of the
source is only read for logging, so it is omitted here). -/
def reflect (summary : String) (cr : LevelOutcome) : ReflectDecision :=
  if cr.success then
    let conf := pyLower cr.confidence
    if pyContains conf "high" then
      { useCommodity := true, code := cr.code, descr := cr.descr,
        confidence := cr.confidence, hierarchy := cr.completeHierarchy,
        reasoning := "High confidence commodity match" }
    else if pyContains conf "medium" then
      let dl := pyLower (cr.descr.getD "")
      if !(genericTerms.any (fun t => pyContains dl t)) then
        { useCommodity := true, code := cr.code, descr := cr.descr,
          confidence := cr.confidence, hierarchy := cr.completeHierarchy,
          reasoning := "Medium confidence but specific commodity" }
      else
        { useCommodity := false,
          confidence := "Medium (Class level - generic commodity avoided)",
          reasoning := "Commodity too generic, class level more appropriate" }
    else
      let overlap := meaningfulOverlap summary (cr.descr.getD "")
      if overlap.length ≥ 2 then
        { useCommodity := true, code := cr.code, descr := cr.descr,
          confidence := "Medium (Keyword match)",
          hierarchy := cr.completeHierarchy,
          reasoning := "Strong keyword overlap: " ++
            String.intercalate ", " overlap }
      else
        { useCommodity := false,
          confidence := "Medium (Class level - low commodity confidence)",
          reasoning := "Commodity confidence too low, class level safer" }
  else
    { useCommodity := false,
      confidence := "Medium (Class level - commodity classification failed)",
      reasoning := "Commodity classification failed: " ++
        (cr.error.getD "Classification failed") }

/-! ## Orchestrator (`chain/classification_chain.py`) -/

/-- Applying the reflection decision (chain lines after
`Performing commodity reflection`): commit the commodity (overwriting the
upper levels when a complete hierarchy accompanies it) or retreat, resetting
the commodity fields. -/
def applyReflection (res : CRes) (dec : ReflectDecision) : CRes :=
  if dec.useCommodity then
    let r := { res with commodityCode := dec.code, commodityDescr := dec.descr,
                        confidence := dec.confidence }
    match dec.hierarchy with
    | some h =>
        { r with segmentCode := some h.seg.code,
                 segmentDescr := some h.seg.description,
                 familyCode := some h.fam.code,
                 familyDescr := some h.fam.description,
                 classCode := some h.cls.code,
                 classDescr := some h.cls.description }
    | none => r
  else
    { res with commodityCode := none, commodityDescr := none,
               confidence := dec.confidence }

/-- `UNSPSCClassificationChain._perform_hierarchical_classification`,
parametrized over the per-level classification outcomes (the classifier
calls are factored out so the cached and uncached chains share it). -/
def performWith (summary : String) (res0 : CRes) (segR : LevelOutcome)
    (famOf : String → LevelOutcome) (clsOf : String → LevelOutcome)
    (comOf : String → LevelOutcome) (segFb : LevelOutcome) : CRes :=
  if segR.success then
    let res := { res0 with segmentCode := segR.code, segmentDescr := segR.descr,
                           confidence := segR.confidence,
                           reasoning := segR.reasoning.getD "" }
    if truthy res.segmentCode then
      let famR := famOf (res.segmentCode.getD "")
      if famR.success then
        let res := { res with familyCode := famR.code, familyDescr := famR.descr }
        if truthy res.familyCode then
          let clsR := clsOf (res.familyCode.getD "")
          if clsR.success then
            let res := { res with classCode := clsR.code,
                                  classDescr := clsR.descr }
            if truthy res.classCode then
              let comR := comOf (res.classCode.getD "")
              applyReflection res (reflect summary comR)
            else
              { res with errors := res.errors ++
                  ["Class classification required for commodity reflection"] }
          else res
        else res
      else
        { res with errors := res.errors ++
            ["Family classification failed: " ++ (famR.error.getD "")] }
    else res
  else
    let res := { res0 with errors := res0.errors ++
        ["Segment classification failed: " ++ (segR.error.getD "")] }
    if segFb.success then
      { res with segmentCode := segFb.code, segmentDescr := segFb.descr,
                 confidence := "Low (Fallback)" }
    else res

/-- The uncached `_perform_hierarchical_classification`. -/
def perform (o : Oracle) (r : Repo) (summary : String) (res0 : CRes) : CRes :=
  performWith summary res0 (classifySegment o r summary)
    (classifyFamily o r summary) (classifyClass o r summary)
    (classifyCommodity o r summary)
    (segmentFallback (dbGetAllSegments r) summary)

/-- One entry of `_build_hierarchy_breakdown`, kept only when both the code
and the description are truthy. -/
def bdEntry (name : String) (code descr : Option String) (lvl : Nat) :
    Option (String × String × String × Nat) :=
  if truthy code && truthy descr then some (name, code.getD "", descr.getD "", lvl)
  else none

/-- `UNSPSCClassificationChain._build_hierarchy_breakdown`. -/
def buildBreakdown (res : CRes) : CRes :=
  let bd := [bdEntry "segment" res.segmentCode res.segmentDescr 1,
             bdEntry "family" res.familyCode res.familyDescr 2,
             bdEntry "class" res.classCode res.classDescr 3,
             bdEntry "commodity" res.commodityCode res.commodityDescr 4
            ].filterMap id
  { res with breakdown := bd, levelsAchieved := bd.map (·.1) }

/-- `ClassificationResult.get_hierarchy_path_string`. -/
def pathString (res : CRes) : String :=
  if res.breakdown.isEmpty then "No hierarchy"
  else
    let parts := (res.breakdown.map (fun e => e.2.1)).filter (· != "")
    if parts.isEmpty then "No path" else String.intercalate " → " parts

/-- The complete-8-digit-code assignment of
`_finalize_classification_result`. -/
def setCompleteCode (res : CRes) : CRes :=
  if truthy res.commodityCode then
    { res with completeCode := some (zfill (res.commodityCode.getD "") 8) }
  else if truthy res.classCode then
    { res with completeCode := some (zfill (res.classCode.getD "") 6 ++ "00") }
  else if truthy res.familyCode then
    { res with completeCode := some (zfill (res.familyCode.getD "") 4 ++ "0000") }
  else if truthy res.segmentCode then
    { res with completeCode := some (zfill (res.segmentCode.getD "") 2 ++ "000000") }
  else res

/-- The final-level determination of `_finalize_classification_result`. -/
def setFinalLevel (res : CRes) : CRes :=
  if truthy res.commodityCode then
    { res with finalCode := res.commodityCode, finalDescr := res.commodityDescr,
               classificationLevel := "commodity", success := true }
  else if truthy res.classCode then
    { res with finalCode := res.classCode, finalDescr := res.classDescr,
               classificationLevel := "class", success := true }
  else if truthy res.familyCode then
    { res with finalCode := res.familyCode, finalDescr := res.familyDescr,
               classificationLevel := "family", success := true,
               errors := res.errors ++
                 ["Warning: Classification stopped at family level - reflection should ensure at least class level"] }
  else if truthy res.segmentCode then
    { res with finalCode := res.segmentCode, finalDescr := res.segmentDescr,
               classificationLevel := "segment", success := true,
               errors := res.errors ++
                 ["Warning: Classification stopped at segment level - reflection should ensure at least class level"] }
  else
    { res with success := false,
               errors := res.errors ++ ["No classification level achieved"] }

/-- `UNSPSCClassificationChain._finalize_classification_result`. -/
def finalize (res : CRes) : CRes :=
  let res := buildBreakdown res
  let res := { res with fullHierarchyPath := pathString res }
  setFinalLevel (setCompleteCode res)

/-- The fresh result `classify_product` starts from (the enrichment fields
are external and omitted). -/
def initRes : CRes := {}

/-- `UNSPSCClassificationChain.classify_product`, from the enhanced summary
on (identifier extraction, web search and summarization are the external
enrichment steps feeding `summary`). -/
def classifyProduct (o : Oracle) (r : Repo) (summary : String) : CRes :=
  finalize (perform o r summary initRes)

/-! ## Cached chain

Each classifier instance owns a private candidate cache
(`segment_cache`, `family_cache`, `class_cache`, `commodity_cache`) that
persists across `classify_product` calls on the same
`UNSPSCClassificationChain`. -/

/-- The caches of the four classifier instances held by one chain. -/
structure ChainState where
  segCache : Option (List Cand) := none
  famCache : List (String × List Cand) := []
  clsCache : List (String × List Cand) := []
  comCache : List (String × List Cand) := []

/-- `SegmentClassifier._get_available_segments`: fill-once cache. -/
def fetchSegments (r : Repo) (st : Option (List Cand)) :
    List Cand × Option (List Cand) :=
  match st with
  | some v => (v, some v)
  | none => let v := dbGetAllSegments r; (v, some v)

/-- A keyed candidate cache (`self.family_cache[segment_code]` etc.). -/
def fetchKeyed (f : String → List Cand) (st : List (String × List Cand))
    (k : String) : List Cand × List (String × List Cand) :=
  match st.find? (fun p => p.1 == k) with
  | some p => (p.2, st)
  | none => let v := f k; (v, st ++ [(k, v)])

/-- Cached `classify_segment`. -/
def classifySegmentC (o : Oracle) (r : Repo) (st : ChainState)
    (summary : String) : LevelOutcome × ChainState :=
  let (segs, sc) := fetchSegments r st.segCache
  (classifySegmentOn o segs summary, { st with segCache := sc })

/-- Cached `get_segment_fallback` (used by the orchestrator's segment
failure branch, through the same classifier instance). -/
def segmentFallbackC (r : Repo) (st : ChainState) (summary : String) :
    LevelOutcome × ChainState :=
  let (segs, sc) := fetchSegments r st.segCache
  (segmentFallback segs summary, { st with segCache := sc })

/-- Cached `classify_family`. -/
def classifyFamilyC (o : Oracle) (r : Repo) (st : ChainState)
    (summary segCode : String) : LevelOutcome × ChainState :=
  let (fams, fc) := fetchKeyed (dbGetFamilies r) st.famCache segCode
  (classifyFamilyOn o fams summary segCode, { st with famCache := fc })

/-- Cached `classify_class`. -/
def classifyClassC (o : Oracle) (r : Repo) (st : ChainState)
    (summary famCode : String) : LevelOutcome × ChainState :=
  let (cands, cc) := fetchKeyed (dbGetClasses r) st.clsCache famCode
  (classifyClassOn o cands summary famCode, { st with clsCache := cc })

/-- Cached `classify_commodity`. -/
def classifyCommodityC (o : Oracle) (r : Repo) (st : ChainState)
    (summary clsCode : String) : LevelOutcome × ChainState :=
  let (cands, cc) := fetchKeyed (dbGetCommodities r) st.comCache clsCode
  (classifyCommodityOn o r cands summary clsCode, { st with comCache := cc })

/-- `_perform_hierarchical_classification` with the instance caches
threaded through. -/
def performC (o : Oracle) (r : Repo) (st : ChainState) (summary : String)
    (res0 : CRes) : CRes × ChainState :=
  let (segR, st1) := classifySegmentC o r st summary
  if segR.success then
    let res := { res0 with segmentCode := segR.code, segmentDescr := segR.descr,
                           confidence := segR.confidence,
                           reasoning := segR.reasoning.getD "" }
    if truthy res.segmentCode then
      let (famR, st2) := classifyFamilyC o r st1 summary (res.segmentCode.getD "")
      if famR.success then
        let res := { res with familyCode := famR.code, familyDescr := famR.descr }
        if truthy res.familyCode then
          let (clsR, st3) := classifyClassC o r st2 summary (res.familyCode.getD "")
          if clsR.success then
            let res := { res with classCode := clsR.code,
                                  classDescr := clsR.descr }
            if truthy res.classCode then
              let (comR, st4) :=
                classifyCommodityC o r st3 summary (res.classCode.getD "")
              (applyReflection res (reflect summary comR), st4)
            else
              ({ res with errors := res.errors ++
                  ["Class classification required for commodity reflection"] }, st3)
          else (res, st3)
        else (res, st2)
      else
        ({ res with errors := res.errors ++
            ["Family classification failed: " ++ (famR.error.getD "")] }, st2)
    else (res, st1)
  else
    let res := { res0 with errors := res0.errors ++
        ["Segment classification failed: " ++ (segR.error.getD "")] }
    let (segFb, st2) := segmentFallbackC r st1 summary
    if segFb.success then
      ({ res with segmentCode := segFb.code, segmentDescr := segFb.descr,
                  confidence := "Low (Fallback)" }, st2)
    else (res, st2)

/-- `classify_product` on a live chain: result plus updated caches. -/
def classifyProductC (o : Oracle) (r : Repo) (st : ChainState)
    (summary : String) : CRes × ChainState :=
  let (res, st1) := performC o r st summary initRes
  (finalize res, st1)

/-- The caches agree with the (fixed snapshot) repository. -/
def CacheOK (r : Repo) (st : ChainState) : Prop :=
  (st.segCache = none ∨ st.segCache = some (dbGetAllSegments r)) ∧
  (∀ p ∈ st.famCache, p.2 = dbGetFamilies r p.1) ∧
  (∀ p ∈ st.clsCache, p.2 = dbGetClasses r p.1) ∧
  (∀ p ∈ st.comCache, p.2 = dbGetCommodities r p.1)

/-! ## Auxiliary definitions and concrete fixtures used by the theorems -/

/-- The hierarchy breakdown a finalized result carries. -/
def bdList (res : CRes) : List (String × String × String × Nat) :=
  [bdEntry "segment" res.segmentCode res.segmentDescr 1,
   bdEntry "family" res.familyCode res.familyDescr 2,
   bdEntry "class" res.classCode res.classDescr 3,
   bdEntry "commodity" res.commodityCode res.commodityDescr 4].filterMap id

/-- A level code field holds a decimal string of exactly width `w` whenever
it is set. -/
def CodeWidth (o : Option String) (w : Nat) : Prop :=
  ∀ c, o = some c → pyIsDigit c = true ∧ c.data.length = w

/-- C4 counterexample input: a repository whose Segment candidate set is
empty (and everything else empty, too). -/
def emptyRepo : Repo :=
  { segmentsRaw := [], familiesRaw := fun _ => [], classesRaw := fun _ => [],
    commoditiesRaw := fun _ => [], commodityRow := fun _ => none,
    levelTitle := fun _ _ => none }

/-- An oracle whose responses never parse. -/
def silentOracle : Oracle :=
  { seg := fun _ _ => none, fam := fun _ _ _ => none,
    cls := fun _ _ _ => none, comm := fun _ _ _ => none }

/-- C6 counterexample fixture: a one-segment repository. -/
def oneSegRepo : Repo :=
  { segmentsRaw := [⟨"40", "Distribution and Conditioning Systems"⟩],
    familiesRaw := fun _ => [], classesRaw := fun _ => [],
    commoditiesRaw := fun _ => [], commodityRow := fun _ => none,
    levelTitle := fun _ _ => none }

/-- C6 counterexample fixture: an oracle that is CONFUSED at the Segment
level. -/
def confusedSegOracle : Oracle :=
  { seg := fun _ _ => some ⟨none, some "CONFUSED", none⟩,
    fam := fun _ _ _ => none, cls := fun _ _ _ => none,
    comm := fun _ _ _ => none }

/-- The Fallback Procedure as the spec words it (refinement reference for
C5): score each candidate by keyword overlap with the description; return
the max-scoring candidate (ties broken by repository order) with "Low", or
the first candidate with "Very Low" when every candidate scores 0. -/
def specFallbackChoice (cands : List Cand) (description : String)
    (stops : List String) : Option (Cand × String) :=
  match cands with
  | [] => none
  | c0 :: _ =>
    let scored := cands.map
      (fun c => (c, fbScore (pyLower description) c.description stops))
    match scored.filter (fun p => 0 < p.2) with
    | [] => some (c0, "Very Low")
    | h :: t =>
        some ((t.foldl (fun b p => if p.2 > b.2 then p else b) h).1, "Low")

/-- C7 counterexample fixture: a taxonomy whose codes carry a leading
zero.  Its children always extend their parent's code (the database layer
filters guarantee that), satisfying the claim's assumption. -/
def zeroRepo : Repo :=
  { segmentsRaw := [⟨"01", "alpha"⟩],
    familiesRaw := fun _ => [⟨"0110", "beta"⟩],
    classesRaw := fun _ => [⟨"011015", "gamma"⟩],
    commoditiesRaw := fun _ => [⟨"01101501", "delta"⟩],
    commodityRow := fun c =>
      if c = "01101501" then some ⟨"01101501", "delta"⟩ else none,
    levelTitle := fun _ _ => none }

/-- C7 counterexample fixture: an oracle answering each level with the
(single) correct candidate at High confidence. -/
def zeroOracle : Oracle :=
  { seg := fun _ _ => some ⟨some "01", some "High", none⟩,
    fam := fun _ _ _ => some ⟨some "0110", some "High", none⟩,
    cls := fun _ _ _ => some ⟨some "011015", some "High", none⟩,
    comm := fun _ _ _ => some ⟨some "01101501", some "High", none⟩ }

/-- C7 witness fixture: a well-formed single-path pump taxonomy. -/
def pumpRepo : Repo :=
  { segmentsRaw := [⟨"40", "Distribution and Conditioning Systems"⟩],
    familiesRaw := fun _ => [⟨"4015", "Industrial pumps and compressors"⟩],
    classesRaw := fun _ => [⟨"401515", "Pumps"⟩],
    commoditiesRaw := fun _ => [⟨"40151501", "Hydraulic gear pumps"⟩],
    commodityRow := fun c =>
      if c = "40151501" then some ⟨"40151501", "Hydraulic gear pumps"⟩
      else none,
    levelTitle := fun _ _ => none }

/-- C7 witness fixture: the matching always-High oracle. -/
def pumpOracle : Oracle :=
  { seg := fun _ _ => some ⟨some "40", some "High", none⟩,
    fam := fun _ _ _ => some ⟨some "4015", some "High", none⟩,
    cls := fun _ _ _ => some ⟨some "401515", some "High", none⟩,
    comm := fun _ _ _ => some ⟨some "40151501", some "High", none⟩ }

/-- C6 witness fixture: an oracle confident at Segment but CONFUSED at
Family. -/
def confusedFamOracle : Oracle :=
  { seg := fun _ _ => some ⟨some "40", some "High", none⟩,
    fam := fun _ _ _ => some ⟨none, some "CONFUSED", none⟩,
    cls := fun _ _ _ => none, comm := fun _ _ _ => none }

/-! ## Basic lemmas about the string primitives -/

theorem zfill_of_le (s : String) (w : Nat) (h : w ≤ s.data.length) :
    zfill s w = s := by
  unfold zfill
  rw [Nat.sub_eq_zero_of_le h]
  rfl

theorem data_append (a b : String) : (a ++ b).data = a.data ++ b.data := by
  simp [String.data_append]

theorem pyIsDigit_append (a b : String) (ha : pyIsDigit a = true)
    (hb : b.data.all (·.isDigit) = true) : pyIsDigit (a ++ b) = true := by
  simp only [pyIsDigit, Bool.and_eq_true, Bool.not_eq_true',
    data_append, List.all_append] at *
  refine ⟨?_, ha.2, hb⟩
  cases hd : a.data with
  | nil => rw [hd] at ha; simp at ha
  | cons x xs => simp [hd]

theorem pyStartsWith_iff (s pre : String) :
    pyStartsWith s pre = true ↔ pre.data <+: s.data := by
  simp [pyStartsWith, List.isPrefixOf_iff_prefix]

theorem truthy_some_of_ne (c : String) (h : c ≠ "") :
    truthy (some c) = true := by
  simp [truthy, h]

theorem ne_empty_of_data_length (c : String) (n : Nat) (h : c.data.length = n)
    (hn : 0 < n) : c ≠ "" := by
  intro he
  subst he
  simp at h
  omega

/-! ## Structural lemmas about `finalize` -/

theorem buildBreakdown_fields (res : CRes) :
    (buildBreakdown res).segmentCode = res.segmentCode ∧
    (buildBreakdown res).familyCode = res.familyCode ∧
    (buildBreakdown res).classCode = res.classCode ∧
    (buildBreakdown res).commodityCode = res.commodityCode ∧
    (buildBreakdown res).segmentDescr = res.segmentDescr ∧
    (buildBreakdown res).familyDescr = res.familyDescr ∧
    (buildBreakdown res).classDescr = res.classDescr ∧
    (buildBreakdown res).commodityDescr = res.commodityDescr ∧
    (buildBreakdown res).errors = res.errors ∧
    (buildBreakdown res).completeCode = res.completeCode ∧
    (buildBreakdown res).classificationLevel = res.classificationLevel ∧
    (buildBreakdown res).confidence = res.confidence := by
  simp [buildBreakdown]

theorem setCompleteCode_frame (res : CRes) :
    (setCompleteCode res).breakdown = res.breakdown ∧
    (setCompleteCode res).segmentCode = res.segmentCode ∧
    (setCompleteCode res).familyCode = res.familyCode ∧
    (setCompleteCode res).classCode = res.classCode ∧
    (setCompleteCode res).commodityCode = res.commodityCode ∧
    (setCompleteCode res).segmentDescr = res.segmentDescr ∧
    (setCompleteCode res).familyDescr = res.familyDescr ∧
    (setCompleteCode res).classDescr = res.classDescr ∧
    (setCompleteCode res).commodityDescr = res.commodityDescr ∧
    (setCompleteCode res).errors = res.errors ∧
    (setCompleteCode res).classificationLevel = res.classificationLevel ∧
    (setCompleteCode res).confidence = res.confidence := by
  unfold setCompleteCode
  split <;> (try split) <;> (try split) <;> (try split) <;>
    exact ⟨rfl, rfl, rfl, rfl, rfl, rfl, rfl, rfl, rfl, rfl, rfl, rfl⟩

theorem setFinalLevel_frame (res : CRes) :
    (setFinalLevel res).breakdown = res.breakdown ∧
    (setFinalLevel res).completeCode = res.completeCode ∧
    (setFinalLevel res).segmentCode = res.segmentCode ∧
    (setFinalLevel res).familyCode = res.familyCode ∧
    (setFinalLevel res).classCode = res.classCode ∧
    (setFinalLevel res).commodityCode = res.commodityCode ∧
    (setFinalLevel res).confidence = res.confidence := by
  unfold setFinalLevel
  split <;> (try split) <;> (try split) <;> (try split) <;>
    exact ⟨rfl, rfl, rfl, rfl, rfl, rfl, rfl⟩

theorem setCompleteCode_completeCode (res : CRes) :
    (setCompleteCode res).completeCode =
      if truthy res.commodityCode then
        some (zfill (res.commodityCode.getD "") 8)
      else if truthy res.classCode then
        some (zfill (res.classCode.getD "") 6 ++ "00")
      else if truthy res.familyCode then
        some (zfill (res.familyCode.getD "") 4 ++ "0000")
      else if truthy res.segmentCode then
        some (zfill (res.segmentCode.getD "") 2 ++ "000000")
      else res.completeCode := by
  unfold setCompleteCode
  split <;> (try split) <;> (try split) <;> (try split) <;> simp_all

theorem setFinalLevel_success (res : CRes) :
    (setFinalLevel res).success =
      (truthy res.commodityCode || truthy res.classCode ||
       truthy res.familyCode || truthy res.segmentCode) := by
  unfold setFinalLevel
  split <;> (try split) <;> (try split) <;> (try split) <;> simp_all

theorem setFinalLevel_level (res : CRes) :
    (setFinalLevel res).classificationLevel =
      if truthy res.commodityCode then "commodity"
      else if truthy res.classCode then "class"
      else if truthy res.familyCode then "family"
      else if truthy res.segmentCode then "segment"
      else res.classificationLevel := by
  unfold setFinalLevel
  split <;> (try split) <;> (try split) <;> (try split) <;> simp_all

theorem buildBreakdown_breakdown (res : CRes) :
    (buildBreakdown res).breakdown = bdList res := by
  simp [buildBreakdown, bdList]

/-- The fields of a finalized result, in terms of the incoming result. -/
theorem finalize_fields (res : CRes) :
    (finalize res).breakdown = bdList res ∧
    (finalize res).success =
      (truthy res.commodityCode || truthy res.classCode ||
       truthy res.familyCode || truthy res.segmentCode) ∧
    (finalize res).completeCode =
      (if truthy res.commodityCode then
        some (zfill (res.commodityCode.getD "") 8)
      else if truthy res.classCode then
        some (zfill (res.classCode.getD "") 6 ++ "00")
      else if truthy res.familyCode then
        some (zfill (res.familyCode.getD "") 4 ++ "0000")
      else if truthy res.segmentCode then
        some (zfill (res.segmentCode.getD "") 2 ++ "000000")
      else res.completeCode) ∧
    (finalize res).classificationLevel =
      (if truthy res.commodityCode then "commodity"
      else if truthy res.classCode then "class"
      else if truthy res.familyCode then "family"
      else if truthy res.segmentCode then "segment"
      else res.classificationLevel) := by
  have he : finalize res = setFinalLevel (setCompleteCode
      { buildBreakdown res with
        fullHierarchyPath := pathString (buildBreakdown res) }) := rfl
  rw [he]
  generalize hA : buildBreakdown res = A
  have hAf := buildBreakdown_fields res
  have hAb := buildBreakdown_breakdown res
  rw [hA] at hAf hAb
  generalize hB : ({ A with fullHierarchyPath := pathString A } : CRes) = B
  have hBf : B.breakdown = A.breakdown ∧ B.segmentCode = A.segmentCode ∧
      B.familyCode = A.familyCode ∧ B.classCode = A.classCode ∧
      B.commodityCode = A.commodityCode ∧ B.completeCode = A.completeCode ∧
      B.classificationLevel = A.classificationLevel := by
    rw [← hB]; exact ⟨rfl, rfl, rfl, rfl, rfl, rfl, rfl⟩
  have hCf := setCompleteCode_frame B
  have hCc := setCompleteCode_completeCode B
  have hDf := setFinalLevel_frame (setCompleteCode B)
  have hDs := setFinalLevel_success (setCompleteCode B)
  have hDl := setFinalLevel_level (setCompleteCode B)
  obtain ⟨c1, c2, c3, c4, c5, -, -, -, -, -, c11, -⟩ := hCf
  obtain ⟨d1, d2, d3, d4, d5, d6, -⟩ := hDf
  obtain ⟨b1, b2, b3, b4, b5, b6, b7⟩ := hBf
  obtain ⟨a1, a2, a3, a4, -, -, -, -, -, a10, a11, -⟩ := hAf
  constructor
  · rw [d1, c1, b1, hAb]
  refine ⟨?_, ?_, ?_⟩
  · rw [hDs, c2, c3, c4, c5, b2, b3, b4, b5, a1, a2, a3, a4]
  · rw [d2, hCc, b2, b3, b4, b5, b6, a1, a2, a3, a4, a10]
  · rw [hDl, c2, c3, c4, c5, c11, b2, b3, b4, b5, b7, a1, a2, a3, a4, a11]

/-! ## Claim theorems -/

/-- C1: the Commodity Reflection decision.  For every commodity-classifier
outcome: if the attempt failed, the result retreats to Class; if its
confidence contains "High" (case-insensitively) the commodity is committed;
otherwise, if it contains "Medium" it is committed exactly when the
description holds no generic blocklist term; otherwise (Low or any other
confidence) it is committed exactly when the meaningful keyword overlap
(distinct common words of length > 3 minus stop words) between the product
summary and the commodity description has size ≥ 2, with the committed
confidence upgraded to "Medium (Keyword match)"; in every other case the
decision retreats. -/
theorem reflection_decision_policy (s : String) (cr : LevelOutcome) :
    (cr.success = false → (reflect s cr).useCommodity = false) ∧
    (cr.success = true →
      pyContains (pyLower cr.confidence) "high" = true →
      (reflect s cr).useCommodity = true ∧ (reflect s cr).code = cr.code ∧
      (reflect s cr).descr = cr.descr ∧
      (reflect s cr).confidence = cr.confidence) ∧
    (cr.success = true →
      pyContains (pyLower cr.confidence) "high" = false →
      pyContains (pyLower cr.confidence) "medium" = true →
      ((reflect s cr).useCommodity =
        !(genericTerms.any (fun t => pyContains (pyLower (cr.descr.getD "")) t)) ∧
       ((reflect s cr).useCommodity = true →
        (reflect s cr).code = cr.code ∧
        (reflect s cr).confidence = cr.confidence))) ∧
    (cr.success = true →
      pyContains (pyLower cr.confidence) "high" = false →
      pyContains (pyLower cr.confidence) "medium" = false →
      ((reflect s cr).useCommodity =
        decide ((meaningfulOverlap s (cr.descr.getD "")).length ≥ 2) ∧
       ((meaningfulOverlap s (cr.descr.getD "")).length ≥ 2 →
        (reflect s cr).code = cr.code ∧
        (reflect s cr).confidence = "Medium (Keyword match)"))) := by
  refine ⟨?_, ?_, ?_, ?_⟩
  · intro hf
    simp [reflect, hf]
  · intro hs hh
    simp [reflect, hs, hh]
  · intro hs hh hm
    by_cases hg :
        genericTerms.any (fun t => pyContains (pyLower (cr.descr.getD "")) t) = true
    · simp [reflect, hs, hh, hm, hg]
    · simp only [Bool.not_eq_true] at hg
      simp [reflect, hs, hh, hm, hg]
  · intro hs hh hm
    by_cases ho : (meaningfulOverlap s (cr.descr.getD "")).length ≥ 2
    · simp [reflect, hs, hh, hm, ho]
    · simp [reflect, hs, hh, hm, ho]

/-- Witness for C1 at a concrete Low-confidence outcome with a two-word
meaningful overlap. -/
theorem reflection_decision_policy_witness :
    (reflect "heavy duty hydraulic gear pump"
      { success := true, code := some "40151501",
        descr := some "Hydraulic gear pumps", confidence := "Low" }).useCommodity
      = true ∧
    (reflect "heavy duty hydraulic gear pump"
      { success := true, code := some "40151501",
        descr := some "Hydraulic gear pumps", confidence := "Low" }).confidence
      = "Medium (Keyword match)" := by
  have h := reflection_decision_policy "heavy duty hydraulic gear pump"
    { success := true, code := some "40151501",
      descr := some "Hydraulic gear pumps", confidence := "Low" }
  have h4 := h.2.2.2 rfl (by decide) (by decide)
  refine ⟨?_, (h4.2 (by decide)).2⟩
  rw [h4.1]
  decide

/-- C2: for every finalized result in which a Segment code was achieved
(and whose set level codes have their fixed widths, as the classifiers
guarantee), `complete_unspsc_code` is a string of exactly 8 decimal digits,
namely the deepest achieved level's code right-padded with zeros to width
8 (commodity as-is, class + "00", family + "0000", segment + "000000"). -/
theorem complete_code_eight_digits (res : CRes)
    (hs : CodeWidth res.segmentCode 2) (hf : CodeWidth res.familyCode 4)
    (hc : CodeWidth res.classCode 6) (hm : CodeWidth res.commodityCode 8)
    (hseg : truthy res.segmentCode = true) :
    ∃ s, (finalize res).completeCode = some s ∧
      pyIsDigit s = true ∧ s.data.length = 8 ∧
      (if truthy res.commodityCode then s = res.commodityCode.getD ""
       else if truthy res.classCode then s = res.classCode.getD "" ++ "00"
       else if truthy res.familyCode then s = res.familyCode.getD "" ++ "0000"
       else s = res.segmentCode.getD "" ++ "000000") := by
  have hcc := (finalize_fields res).2.2.1
  by_cases h1 : truthy res.commodityCode = true
  · cases hco : res.commodityCode with
    | none => rw [hco] at h1; simp [truthy] at h1
    | some c =>
        obtain ⟨hd, hl⟩ := hm c hco
        have hz := zfill_of_le c 8 (le_of_eq hl.symm)
        have h1x : truthy (some c) = true := hco ▸ h1
        refine ⟨c, ?_, hd, hl, ?_⟩
        · rw [hcc, if_pos h1, hco]
          simp [hz]
        · simp [h1x]
  · by_cases h2 : truthy res.classCode = true
    · cases hco : res.classCode with
      | none => rw [hco] at h2; simp [truthy] at h2
      | some c =>
          obtain ⟨hd, hl⟩ := hc c hco
          have hz := zfill_of_le c 6 (le_of_eq hl.symm)
          have h2x : truthy (some c) = true := hco ▸ h2
          refine ⟨c ++ "00", ?_, pyIsDigit_append c "00" hd (by decide), ?_, ?_⟩
          · rw [hcc, if_neg h1, if_pos h2, hco]
            simp [hz]
          · rw [data_append, List.length_append, hl]; rfl
          · simp [h1, h2x]
    · by_cases h3 : truthy res.familyCode = true
      · cases hco : res.familyCode with
        | none => rw [hco] at h3; simp [truthy] at h3
        | some c =>
            obtain ⟨hd, hl⟩ := hf c hco
            have hz := zfill_of_le c 4 (le_of_eq hl.symm)
            have h3x : truthy (some c) = true := hco ▸ h3
            refine ⟨c ++ "0000", ?_,
              pyIsDigit_append c "0000" hd (by decide), ?_, ?_⟩
            · rw [hcc, if_neg h1, if_neg h2, if_pos h3, hco]
              simp [hz]
            · rw [data_append, List.length_append, hl]; rfl
            · simp [h1, h2, h3x]
      · cases hco : res.segmentCode with
        | none => rw [hco] at hseg; simp [truthy] at hseg
        | some c =>
            obtain ⟨hd, hl⟩ := hs c hco
            have hz := zfill_of_le c 2 (le_of_eq hl.symm)
            refine ⟨c ++ "000000", ?_,
              pyIsDigit_append c "000000" hd (by decide), ?_, ?_⟩
            · rw [hcc, if_neg h1, if_neg h2, if_neg h3, if_pos hseg, hco]
              simp [hz]
            · rw [data_append, List.length_append, hl]; rfl
            · simp [h1, h2, h3]

/-- Witness for C2 at a class-level result (retreat scenario):
`401515` is padded to `40151500`. -/
theorem complete_code_eight_digits_witness :
    ∃ s, (finalize
      { segmentCode := some "40", segmentDescr := some "seg",
        familyCode := some "4015", familyDescr := some "fam",
        classCode := some "401515", classDescr := some "cls",
        confidence := "Medium" }).completeCode = some s ∧
      pyIsDigit s = true ∧ s.data.length = 8 ∧ s = "40151500" := by
  have h := complete_code_eight_digits
    { segmentCode := some "40", segmentDescr := some "seg",
      familyCode := some "4015", familyDescr := some "fam",
      classCode := some "401515", classDescr := some "cls",
      confidence := "Medium" }
    (by intro c hc; cases hc; exact ⟨by decide, by decide⟩)
    (by intro c hc; cases hc; exact ⟨by decide, by decide⟩)
    (by intro c hc; cases hc; exact ⟨by decide, by decide⟩)
    (by intro c hc; simp at hc)
    (by decide)
  obtain ⟨s, h1, h2, h3, h4⟩ := h
  simp only [show truthy (none : Option String) = false from rfl] at h4
  rw [if_neg (by decide), if_pos (by decide)] at h4
  exact ⟨s, h1, h2, h3, h4⟩

/-- C3 counterexample: at the Class level a non-CONFUSED answer with an
invalid code yields an outright failure outcome, not the Fallback
Procedure's result (which would succeed on this non-empty candidate set). -/
theorem class_validation_no_fallback_cex :
    (validateClass [⟨"401515", "Industrial pumps"⟩]
      ⟨some "99x", some "High", none⟩ "4015").success = false ∧
    (validateClass [⟨"401515", "Industrial pumps"⟩]
      ⟨some "99x", some "High", none⟩ "4015").fallbackToFamily = true ∧
    (classFallback [⟨"401515", "Industrial pumps"⟩]
      "industrial pumps" "4015").success = true ∧
    validateClass [⟨"401515", "Industrial pumps"⟩]
        ⟨some "99x", some "High", none⟩ "4015" ≠
      classFallback [⟨"401515", "Industrial pumps"⟩] "industrial pumps" "4015" := by
  refine ⟨?_, ?_, ?_, ?_⟩ <;> decide

/-- A segment validation failure routes to the fallback on "". -/
theorem seg_invalid_fallback (segs : List Cand) (d : Parsed)
    (hnc : isConfused d = false)
    (hviol : badFormat d 2 = true ∨
      segs.find? (fun s => s.code == zfill (d.code.getD "") 2) = none) :
    validateSegment segs d = segmentFallback segs "" := by
  by_cases hbf : badFormat d 2 = true
  · simp [validateSegment, hnc, hbf]
  · rcases hviol with h | h
    · exact absurd h hbf
    · simp only [Bool.not_eq_true] at hbf
      simp [validateSegment, hnc, hbf, h]

/-- A family validation failure routes to the fallback on "". -/
theorem fam_invalid_fallback (fams : List Cand) (d : Parsed) (segCode : String)
    (hnc : isConfused d = false)
    (hviol : badFormat d 4 = true ∨
      pyStartsWith (zfill (d.code.getD "") 4) (zfill segCode 2) = false ∨
      fams.find? (fun f => f.code == zfill (d.code.getD "") 4) = none) :
    validateFamily fams d segCode = familyFallback fams "" segCode := by
  by_cases hbf : badFormat d 4 = true
  · simp [validateFamily, hnc, hbf]
  · simp only [Bool.not_eq_true] at hbf
    by_cases hct : pyStartsWith (zfill (d.code.getD "") 4) (zfill segCode 2) = true
    · rcases hviol with h | h | h
      · rw [h] at hbf; cases hbf
      · rw [h] at hct; cases hct
      · simp [validateFamily, hnc, hbf, hct, h]
    · simp only [Bool.not_eq_true] at hct
      simp [validateFamily, hnc, hbf, hct]

/-- A commodity validation failure routes to the fallback on "". -/
theorem com_invalid_fallback (r : Repo) (cands : List Cand) (d : Parsed)
    (clsCode : String) (hnc : isConfused d = false)
    (hviol : badFormat d 8 = true ∨
      cands.find? (fun c => c.code == zfill (d.code.getD "") 8) = none) :
    validateCommodity r cands d clsCode = commodityFallback cands "" clsCode := by
  by_cases hbf : badFormat d 8 = true
  · simp [validateCommodity, hnc, hbf]
  · rcases hviol with h | h
    · exact absurd h hbf
    · simp only [Bool.not_eq_true] at hbf
      simp [validateCommodity, hnc, hbf, h]

/-- A class validation failure is an outright failure outcome. -/
theorem cls_invalid_failure (cands : List Cand) (d : Parsed) (famCode : String)
    (hnc : isConfused d = false)
    (hviol : badFormat d 6 = true ∨
      pyStartsWith (zfill (d.code.getD "") 6) (zfill famCode 4) = false ∨
      cands.find? (fun c => c.code == zfill (d.code.getD "") 6) = none) :
    (validateClass cands d famCode).success = false ∧
    (validateClass cands d famCode).fallbackToFamily = true ∧
    (validateClass cands d famCode).confidence = "None" := by
  by_cases hbf : badFormat d 6 = true
  · simp [validateClass, hnc, hbf, classValidationFailure]
  · simp only [Bool.not_eq_true] at hbf
    by_cases hct : pyStartsWith (zfill (d.code.getD "") 6) (zfill famCode 4) = true
    · rcases hviol with h | h | h
      · rw [h] at hbf; cases hbf
      · rw [h] at hct; cases hct
      · simp [validateClass, hnc, hbf, hct, h, classValidationFailure]
    · simp only [Bool.not_eq_true] at hct
      simp [validateClass, hnc, hbf, hct, classValidationFailure]

/-- C3 amended: a non-CONFUSED parsed answer that fails the format,
containment, or candidate-membership validation invokes the deterministic
fallback (with an empty description) at the Segment, Family and Commodity
levels, but at the Class level returns a failure outcome
(`success=false, fallback_to_family=true`) without invoking the fallback. -/
theorem validation_failure_routing :
    (∀ (segs : List Cand) (d : Parsed), isConfused d = false →
      (badFormat d 2 = true ∨
       segs.find? (fun s => s.code == zfill (d.code.getD "") 2) = none) →
      validateSegment segs d = segmentFallback segs "") ∧
    (∀ (fams : List Cand) (d : Parsed) (segCode : String), isConfused d = false →
      (badFormat d 4 = true ∨
       pyStartsWith (zfill (d.code.getD "") 4) (zfill segCode 2) = false ∨
       fams.find? (fun f => f.code == zfill (d.code.getD "") 4) = none) →
      validateFamily fams d segCode = familyFallback fams "" segCode) ∧
    (∀ (r : Repo) (cands : List Cand) (d : Parsed) (clsCode : String),
      isConfused d = false →
      (badFormat d 8 = true ∨
       cands.find? (fun c => c.code == zfill (d.code.getD "") 8) = none) →
      validateCommodity r cands d clsCode = commodityFallback cands "" clsCode) ∧
    (∀ (cands : List Cand) (d : Parsed) (famCode : String), isConfused d = false →
      (badFormat d 6 = true ∨
       pyStartsWith (zfill (d.code.getD "") 6) (zfill famCode 4) = false ∨
       cands.find? (fun c => c.code == zfill (d.code.getD "") 6) = none) →
      (validateClass cands d famCode).success = false ∧
      (validateClass cands d famCode).fallbackToFamily = true ∧
      (validateClass cands d famCode).confidence = "None") :=
  ⟨seg_invalid_fallback, fam_invalid_fallback, com_invalid_fallback,
   cls_invalid_failure⟩

/-- On an empty summary no keyword of the hard-coded map matches, so the
segment fallback is the hard-coded default segment 23. -/
theorem segmentFallback_empty (segs : List Cand) :
    segmentFallback segs "" =
      { success := true, code := some "23",
        descr := some "Manufacturing Components and Supplies",
        confidence := "Very Low",
        reasoning := some "Default fallback segment" } := rfl

/-- On an empty summary every keyword-overlap score is zero, so the score
dict stays empty. -/
theorem fbScoresDict_empty (cands : List Cand) (stops : List String) :
    fbScoresDict cands (pyLower "") stops = [] := by
  have key : ∀ l : List Cand,
      l.foldl (fun acc c =>
        let s := fbScore (pyLower "") c.description stops
        if s > 0 then dictInsert acc c.code s else acc) [] = [] := by
    intro l
    induction l with
    | nil => rfl
    | cons c t ih => exact ih
  exact key cands

/-- On an empty summary the family fallback returns the first family. -/
theorem familyFallback_empty (f : Cand) (rest : List Cand) (segCode : String) :
    familyFallback (f :: rest) "" segCode =
      { success := true, code := some f.code, descr := some f.description,
        confidence := "Low",
        reasoning := some "General fallback - first available family" } := by
  simp [familyFallback, pyContains, pyLower, infixOfList]

/-- On an empty summary the commodity fallback returns the first commodity
with confidence "Very Low". -/
theorem commodityFallback_empty (c0 : Cand) (rest : List Cand)
    (clsCode : String) :
    commodityFallback (c0 :: rest) "" clsCode =
      { success := true, code := some c0.code, descr := some c0.description,
        confidence := "Very Low",
        reasoning := some "Desperate fallback - first available commodity" } := by
  have h := fbScoresDict_empty (c0 :: rest) commodityStops
  simp only [commodityFallback]
  rw [h]

/-- C9: at the Segment, Family and Commodity levels, a non-CONFUSED answer
failing format or membership validation hands the empty string to the
fallback, whose result is then a fixed default independent of the product
description: segment "23" with "Very Low", the first family with "Low",
the first commodity with "Very Low". -/
theorem empty_string_fallback_defaults :
    (∀ (segs : List Cand) (d : Parsed), isConfused d = false →
      (badFormat d 2 = true ∨
       segs.find? (fun s => s.code == zfill (d.code.getD "") 2) = none) →
      validateSegment segs d =
        { success := true, code := some "23",
          descr := some "Manufacturing Components and Supplies",
          confidence := "Very Low",
          reasoning := some "Default fallback segment" }) ∧
    (∀ (f : Cand) (rest : List Cand) (d : Parsed) (segCode : String),
      isConfused d = false →
      (badFormat d 4 = true ∨
       pyStartsWith (zfill (d.code.getD "") 4) (zfill segCode 2) = false ∨
       (f :: rest).find? (fun x => x.code == zfill (d.code.getD "") 4) = none) →
      validateFamily (f :: rest) d segCode =
        { success := true, code := some f.code, descr := some f.description,
          confidence := "Low",
          reasoning := some "General fallback - first available family" }) ∧
    (∀ (r : Repo) (c0 : Cand) (rest : List Cand) (d : Parsed)
      (clsCode : String), isConfused d = false →
      (badFormat d 8 = true ∨
       (c0 :: rest).find? (fun c => c.code == zfill (d.code.getD "") 8) = none) →
      validateCommodity r (c0 :: rest) d clsCode =
        { success := true, code := some c0.code, descr := some c0.description,
          confidence := "Very Low",
          reasoning := some "Desperate fallback - first available commodity" }) := by
  refine ⟨?_, ?_, ?_⟩
  · intro segs d hnc hviol
    rw [seg_invalid_fallback segs d hnc hviol, segmentFallback_empty]
  · intro f rest d segCode hnc hviol
    rw [fam_invalid_fallback (f :: rest) d segCode hnc hviol,
      familyFallback_empty]
  · intro r c0 rest d clsCode hnc hviol
    rw [com_invalid_fallback r (c0 :: rest) d clsCode hnc hviol,
      commodityFallback_empty]

/-- Witness for C9: a hallucinated segment code ("77" not among the
candidates) yields the fixed default segment 23, and a malformed commodity
code yields the first commodity. -/
theorem empty_string_fallback_defaults_witness :
    validateSegment [⟨"40", "Distribution"⟩] ⟨some "77", some "High", none⟩ =
      { success := true, code := some "23",
        descr := some "Manufacturing Components and Supplies",
        confidence := "Very Low",
        reasoning := some "Default fallback segment" } ∧
    validateCommodity
      { segmentsRaw := [], familiesRaw := fun _ => [],
        classesRaw := fun _ => [], commoditiesRaw := fun _ => [],
        commodityRow := fun _ => none, levelTitle := fun _ _ => none }
      [⟨"40151501", "Hydraulic gear pumps"⟩, ⟨"40151502", "Vane pumps"⟩]
      ⟨some "4015150x", some "High", none⟩ "401515" =
      { success := true, code := some "40151501",
        descr := some "Hydraulic gear pumps", confidence := "Very Low",
        reasoning := some "Desperate fallback - first available commodity" } := by
  constructor
  · exact empty_string_fallback_defaults.1 [⟨"40", "Distribution"⟩]
      ⟨some "77", some "High", none⟩ (by decide) (Or.inr (by decide))
  · exact empty_string_fallback_defaults.2.2 _ ⟨"40151501", "Hydraulic gear pumps"⟩
      [⟨"40151502", "Vane pumps"⟩] ⟨some "4015150x", some "High", none⟩
      "401515" (by decide) (Or.inl (by decide))

/-- Witness for the amended C3 at concrete inputs: a malformed segment code
routes to the segment fallback, and a malformed class code produces the
Class-level failure outcome. -/
theorem validation_failure_routing_witness :
    validateSegment [⟨"40", "Distribution"⟩] ⟨some "4x", some "High", none⟩ =
      segmentFallback [⟨"40", "Distribution"⟩] "" ∧
    (validateClass [⟨"401515", "Pumps"⟩] ⟨some "741", some "High", none⟩
      "4015").success = false := by
  constructor
  · exact validation_failure_routing.1 [⟨"40", "Distribution"⟩]
      ⟨some "4x", some "High", none⟩ (by decide) (Or.inl (by decide))
  · exact (validation_failure_routing.2.2.2 [⟨"401515", "Pumps"⟩]
      ⟨some "741", some "High", none⟩ "4015" (by decide)
      (Or.inr (Or.inl (by decide)))).1

/-! ## Shared lemmas about classifier outcomes -/

theorem zfill_length (s : String) (w : Nat) :
    (zfill s w).data.length = max w s.data.length := by
  simp [zfill]
  omega

theorem zfill_ge (s : String) (w : Nat) : w ≤ (zfill s w).data.length := by
  rw [zfill_length]
  exact Nat.le_max_left _ _

/-- The running best of the first-max fold is one of the scanned pairs. -/
theorem firstMaxBySnd_mem (h : String × Nat) (t : List (String × Nat)) :
    ∃ p ∈ h :: t, firstMaxBySnd h t = p.1 := by
  unfold firstMaxBySnd
  induction t generalizing h with
  | nil => exact ⟨h, List.mem_cons_self h [], rfl⟩
  | cons x xs ih =>
      obtain ⟨p, hp, he⟩ := ih (if x.2 > h.2 then x else h)
      refine ⟨p, ?_, he⟩
      rcases List.mem_cons.mp hp with h1 | h1
      · split at h1 <;> simp [h1]
      · simp [List.mem_cons.mpr (Or.inr (List.mem_cons.mpr (Or.inr h1)))]

/-- Every key of the fallback score dict is a candidate code. -/
theorem fbScoresDict_keys (cands : List Cand) (sl : String)
    (stops : List String) :
    ∀ p ∈ fbScoresDict cands sl stops, ∃ c ∈ cands, p.1 = c.code := by
  unfold fbScoresDict
  suffices h : ∀ (l : List Cand) (acc : List (String × Nat)),
      (∀ p ∈ acc, ∃ c, (c ∈ cands) ∧ p.1 = c.code) →
      (∀ c ∈ l, c ∈ cands) →
      ∀ p ∈ l.foldl (fun acc c =>
        let s := fbScore sl c.description stops
        if s > 0 then dictInsert acc c.code s else acc) acc,
        ∃ c, (c ∈ cands) ∧ p.1 = c.code by
    intro p hp
    obtain ⟨c, hc, he⟩ := h cands [] (by simp) (fun c hc => hc) p hp
    exact ⟨c, hc, he⟩
  intro l
  induction l with
  | nil => intro acc hacc _ p hp; exact hacc p hp
  | cons x xs ih =>
      intro acc hacc hsub p hp
      simp only [List.foldl_cons] at hp
      refine ih _ ?_ (fun c hc => hsub c (List.mem_cons.mpr (Or.inr hc))) p hp
      intro q hq
      by_cases hs : fbScore sl x.description stops > 0
      · simp only [if_pos hs, dictInsert] at hq
        split at hq
        · rcases List.mem_map.mp hq with ⟨q0, hq0, he⟩
          by_cases hk : (q0.1 == x.code) = true
          · rw [if_pos hk] at he
            refine ⟨x, hsub x (List.mem_cons.mpr (Or.inl rfl)), ?_⟩
            rw [← he]
            exact beq_iff_eq.mp hk
          · rw [if_neg hk] at he
            rw [← he]
            exact hacc q0 hq0
        · rcases List.mem_append.mp hq with h1 | h1
          · exact hacc q h1
          · simp only [List.mem_singleton] at h1
            exact ⟨x, hsub x (List.mem_cons.mpr (Or.inl rfl)), by rw [h1]⟩
      · simp only [if_neg hs] at hq
        exact hacc q hq

/-- The class fallback on a non-empty candidate set succeeds and returns
one of the candidates' codes. -/
theorem classFallback_success (cands : List Cand) (s f : String)
    (hne : cands ≠ []) :
    (classFallback cands s f).success = true ∧
    ∃ c ∈ cands, (classFallback cands s f).code = some c.code := by
  match cands, hne with
  | c0 :: rest, _ =>
    cases hd : fbScoresDict (c0 :: rest) (pyLower s) classStops with
    | nil =>
        refine ⟨?_, c0, List.mem_cons_self c0 rest, ?_⟩ <;>
          (unfold classFallback; rw [hd])
    | cons h t =>
        have hsu : (classFallback (c0 :: rest) s f).success = true := by
          unfold classFallback; rw [hd]
        have hcd : (classFallback (c0 :: rest) s f).code =
            some (firstMaxBySnd h t) := by
          unfold classFallback; rw [hd]
        refine ⟨hsu, ?_⟩
        obtain ⟨p, hp, he⟩ := firstMaxBySnd_mem h t
        rw [← hd] at hp
        obtain ⟨c, hc, hcode⟩ := fbScoresDict_keys (c0 :: rest) (pyLower s)
          classStops p hp
        exact ⟨c, hc, by rw [hcd, he, hcode]⟩

/-- The commodity fallback on a non-empty candidate set succeeds and
returns one of the candidates' codes. -/
theorem commodityFallback_success (cands : List Cand) (s f : String)
    (hne : cands ≠ []) :
    (commodityFallback cands s f).success = true ∧
    ∃ c ∈ cands, (commodityFallback cands s f).code = some c.code := by
  match cands, hne with
  | c0 :: rest, _ =>
    cases hd : fbScoresDict (c0 :: rest) (pyLower s) commodityStops with
    | nil =>
        refine ⟨?_, c0, List.mem_cons_self c0 rest, ?_⟩ <;>
          (unfold commodityFallback; rw [hd])
    | cons h t =>
        have hsu : (commodityFallback (c0 :: rest) s f).success = true := by
          unfold commodityFallback; rw [hd]
        have hcd : (commodityFallback (c0 :: rest) s f).code =
            some (firstMaxBySnd h t) := by
          unfold commodityFallback; rw [hd]
        refine ⟨hsu, ?_⟩
        obtain ⟨p, hp, he⟩ := firstMaxBySnd_mem h t
        rw [← hd] at hp
        obtain ⟨c, hc, hcode⟩ := fbScoresDict_keys (c0 :: rest) (pyLower s)
          commodityStops p hp
        exact ⟨c, hc, by rw [hcd, he, hcode]⟩

/-- The segment fallback always succeeds, with a nonempty hard-coded code. -/
theorem segmentFallback_spec (segs : List Cand) (s : String) :
    (segmentFallback segs s).success = true ∧
    ∃ c, (segmentFallback segs s).code = some c ∧ c.data.length = 2 := by
  unfold segmentFallback
  cases hd : segScores s with
  | nil => exact ⟨rfl, "23", rfl, rfl⟩
  | cons h t =>
      refine ⟨rfl, firstMaxBySnd h t, rfl, ?_⟩
      obtain ⟨p, hp, he⟩ := firstMaxBySnd_mem h t
      rw [← hd] at hp
      rw [he]
      rcases List.mem_filterMap.mp hp with ⟨q, hq, hqe⟩
      have hpq : p.1 = q.1 := by
        by_cases hc :
            (q.2.filter (fun kw => pyContains (pyLower s) kw)).length > 0
        · simp only [if_pos hc, Option.some.injEq] at hqe
          rw [← hqe]
        · simp only [if_neg hc] at hqe
          cases hqe
      rw [hpq]
      fin_cases hq <;> rfl

/-- Codes served by `get_families_by_segment` are zero-padded to at least
4 digits and extend the segment's zero-padded code. -/
theorem dbGetFamilies_mem (r : Repo) (seg : String) :
    ∀ c ∈ dbGetFamilies r seg,
      4 ≤ c.code.data.length ∧ pyStartsWith c.code (zfill seg 2) = true := by
  intro c hc
  unfold dbGetFamilies at hc
  obtain ⟨hm, hf⟩ := List.mem_filter.mp hc
  rcases List.mem_map.mp hm with ⟨raw, _, he⟩
  refine ⟨?_, hf⟩
  rw [← he]
  exact zfill_ge raw.code 4

theorem dbGetClasses_mem (r : Repo) (fam : String) :
    ∀ c ∈ dbGetClasses r fam,
      6 ≤ c.code.data.length ∧ pyStartsWith c.code (zfill fam 4) = true := by
  intro c hc
  unfold dbGetClasses at hc
  obtain ⟨hm, hf⟩ := List.mem_filter.mp hc
  rcases List.mem_map.mp hm with ⟨raw, _, he⟩
  refine ⟨?_, hf⟩
  rw [← he]
  exact zfill_ge raw.code 6

theorem dbGetCommodities_mem (r : Repo) (cls : String) :
    ∀ c ∈ dbGetCommodities r cls,
      8 ≤ c.code.data.length ∧ pyStartsWith c.code (zfill cls 6) = true := by
  intro c hc
  unfold dbGetCommodities at hc
  obtain ⟨hm, hf⟩ := List.mem_filter.mp hc
  rcases List.mem_map.mp hm with ⟨raw, _, he⟩
  refine ⟨?_, hf⟩
  rw [← he]
  exact zfill_ge raw.code 8

/-- A format-valid parsed code, zero-padded, has exactly the level width. -/
theorem badFormat_false_length (d : Parsed) (w : Nat)
    (h : badFormat d w = false) :
    (zfill (d.code.getD "") w).data.length = w := by
  unfold badFormat at h
  simp only [Bool.or_eq_false_iff, bne_eq_false_iff_eq] at h
  exact h.2

/-- A successful segment validation carries a 2-digit code. -/
theorem validateSegment_spec (segs : List Cand) (d : Parsed)
    (hs : (validateSegment segs d).success = true) :
    ∃ c, (validateSegment segs d).code = some c ∧ c.data.length = 2 := by
  by_cases hcf : isConfused d = true
  · simp only [validateSegment, hcf, if_true] at hs
    simp [confusedOutcome] at hs
  · by_cases hbf : badFormat d 2 = true
    · simp only [validateSegment, hcf, hbf] at hs ⊢
      simp only [Bool.false_eq_true, if_false, if_true] at hs ⊢
      obtain ⟨-, c, hc, hl⟩ := segmentFallback_spec segs ""
      exact ⟨c, hc, hl⟩
    · simp only [Bool.not_eq_true] at hcf hbf
      cases hfind : segs.find? (fun x => x.code == zfill (d.code.getD "") 2) with
      | none =>
          simp only [validateSegment, hcf, hbf, hfind] at hs ⊢
          simp only [Bool.false_eq_true, if_false] at hs ⊢
          obtain ⟨-, c, hc, hl⟩ := segmentFallback_spec segs ""
          exact ⟨c, hc, hl⟩
      | some x =>
          simp only [validateSegment, hcf, hbf, hfind]
          simp only [Bool.false_eq_true, if_false]
          exact ⟨zfill (d.code.getD "") 2, rfl, badFormat_false_length d 2 hbf⟩

/-- A successful segment outcome carries a 2-digit code. -/
theorem classifySegmentOn_spec (o : Oracle) (segs : List Cand) (s : String)
    (hs : (classifySegmentOn o segs s).success = true) :
    ∃ c, (classifySegmentOn o segs s).code = some c ∧ c.data.length = 2 := by
  by_cases he : segs.isEmpty
  · simp only [classifySegmentOn, he, if_true] at hs
    simp at hs
  · cases ho : o.seg s (segs.take 20) with
    | none =>
        simp only [classifySegmentOn, he, ho] at hs ⊢
        simp only [Bool.false_eq_true, if_false] at hs ⊢
        obtain ⟨-, c, hc, hl⟩ := segmentFallback_spec segs s
        exact ⟨c, hc, hl⟩
    | some d =>
        simp only [classifySegmentOn, he, ho] at hs ⊢
        simp only [Bool.false_eq_true, if_false] at hs ⊢
        exact validateSegment_spec segs d hs

/-- A successful family fallback returns a candidate of its list. -/
theorem familyFallback_spec (fams : List Cand) (s seg : String)
    (hne : fams ≠ []) :
    (familyFallback fams s seg).success = true ∧
    ∃ c ∈ fams, (familyFallback fams s seg).code = some c.code := by
  match fams, hne with
  | f0 :: rest, _ =>
    by_cases hp : (seg == "40" &&
        (["pump", "hydraulic", "compressor"].any
          (fun w => pyContains (pyLower s) w))) = true
    · cases hfind : (f0 :: rest).find?
          (fun f => pyContains (pyLower f.description) "pump") with
      | none =>
          simp only [familyFallback, hp, hfind, if_true]
          exact ⟨by trivial, f0, List.mem_cons_self f0 rest, by trivial⟩
      | some f =>
          simp only [familyFallback, hp, hfind, if_true]
          exact ⟨by trivial, f, List.mem_of_find?_eq_some hfind, by trivial⟩
    · simp only [familyFallback, hp, Bool.false_eq_true, if_false]
      exact ⟨by trivial, f0, List.mem_cons_self f0 rest, by trivial⟩

/-- A successful family validation carries a code extending the segment's
zero-padded code, or routes to the fallback whose code is a candidate's. -/
theorem validateFamily_spec (fams : List Cand) (d : Parsed) (seg : String)
    (hdb : ∀ c ∈ fams,
      4 ≤ c.code.data.length ∧ pyStartsWith c.code (zfill seg 2) = true)
    (hne : fams ≠ [])
    (hs : (validateFamily fams d seg).success = true) :
    ∃ c, (validateFamily fams d seg).code = some c ∧
      4 ≤ c.data.length ∧ pyStartsWith c (zfill seg 2) = true := by
  by_cases hcf : isConfused d = true
  · simp only [validateFamily, hcf, if_true] at hs
    simp [confusedOutcome] at hs
  · by_cases hbf : badFormat d 4 = true
    · simp only [validateFamily, hcf, hbf] at hs ⊢
      simp only [Bool.false_eq_true, if_false, if_true] at hs ⊢
      obtain ⟨-, c, hc, hcode⟩ := familyFallback_spec fams "" seg hne
      obtain ⟨hl, hpre⟩ := hdb c hc
      exact ⟨c.code, hcode, hl, hpre⟩
    · simp only [Bool.not_eq_true] at hcf hbf
      by_cases hct :
          pyStartsWith (zfill (d.code.getD "") 4) (zfill seg 2) = true
      · cases hfind : fams.find?
            (fun f => f.code == zfill (d.code.getD "") 4) with
        | none =>
            simp only [validateFamily, hcf, hbf, hct, hfind] at hs ⊢
            simp only [Bool.false_eq_true, if_false, Bool.not_true] at hs ⊢
            obtain ⟨-, c, hc, hcode⟩ := familyFallback_spec fams "" seg hne
            obtain ⟨hl, hpre⟩ := hdb c hc
            exact ⟨c.code, hcode, hl, hpre⟩
        | some f =>
            simp only [validateFamily, hcf, hbf, hct, hfind]
            simp only [Bool.false_eq_true, if_false, Bool.not_true]
            refine ⟨zfill (d.code.getD "") 4, rfl, ?_, hct⟩
            rw [badFormat_false_length d 4 hbf]
      · simp only [Bool.not_eq_true] at hct
        simp only [validateFamily, hcf, hbf, hct] at hs ⊢
        simp only [Bool.false_eq_true, if_false, Bool.not_false, if_true]
          at hs ⊢
        obtain ⟨-, c, hc, hcode⟩ := familyFallback_spec fams "" seg hne
        obtain ⟨hl, hpre⟩ := hdb c hc
        exact ⟨c.code, hcode, hl, hpre⟩

/-- A successful family outcome carries a ≥4-digit code extending the
segment's zero-padded code, provided the candidate list satisfies the
repository filter (as `get_families_by_segment` guarantees). -/
theorem classifyFamilyOn_spec (o : Oracle) (fams : List Cand) (s seg : String)
    (hdb : ∀ c ∈ fams,
      4 ≤ c.code.data.length ∧ pyStartsWith c.code (zfill seg 2) = true)
    (hs : (classifyFamilyOn o fams s seg).success = true) :
    ∃ c, (classifyFamilyOn o fams s seg).code = some c ∧
      4 ≤ c.data.length ∧ pyStartsWith c (zfill seg 2) = true := by
  by_cases he : fams.isEmpty
  · simp only [classifyFamilyOn, he, if_true] at hs
    simp at hs
  · have hne : fams ≠ [] := by
      intro h0; rw [h0] at he; exact he rfl
    cases ho : o.fam s seg (fams.take 10) with
    | none =>
        simp only [classifyFamilyOn, he, ho] at hs ⊢
        simp only [Bool.false_eq_true, if_false] at hs ⊢
        obtain ⟨-, c, hc, hcode⟩ := familyFallback_spec fams s seg hne
        obtain ⟨hl, hpre⟩ := hdb c hc
        exact ⟨c.code, hcode, hl, hpre⟩
    | some d =>
        simp only [classifyFamilyOn, he, ho] at hs ⊢
        simp only [Bool.false_eq_true, if_false] at hs ⊢
        exact validateFamily_spec fams d seg hdb hne hs

/-- A successful class validation carries a 6-digit code extending the
family's zero-padded code. -/
theorem validateClass_spec (cands : List Cand) (d : Parsed) (fam : String)
    (hs : (validateClass cands d fam).success = true) :
    ∃ c, (validateClass cands d fam).code = some c ∧
      c.data.length = 6 ∧ pyStartsWith c (zfill fam 4) = true := by
  by_cases hcf : isConfused d = true
  · simp only [validateClass, hcf, if_true] at hs
    simp [confusedOutcome] at hs
  · by_cases hbf : badFormat d 6 = true
    · simp only [validateClass, hcf, hbf, Bool.false_eq_true, if_false,
        if_true] at hs
      simp [classValidationFailure] at hs
    · simp only [Bool.not_eq_true] at hcf hbf
      by_cases hct :
          pyStartsWith (zfill (d.code.getD "") 6) (zfill fam 4) = true
      · cases hfind : cands.find?
            (fun c => c.code == zfill (d.code.getD "") 6) with
        | none =>
            simp only [validateClass, hcf, hbf, hct, hfind,
              Bool.false_eq_true, if_false, Bool.not_true] at hs
            simp [classValidationFailure] at hs
        | some c =>
            simp only [validateClass, hcf, hbf, hct, hfind,
              Bool.false_eq_true, if_false, Bool.not_true]
            exact ⟨zfill (d.code.getD "") 6, rfl,
              badFormat_false_length d 6 hbf, hct⟩
      · simp only [Bool.not_eq_true] at hct
        simp only [validateClass, hcf, hbf, hct, Bool.false_eq_true,
          if_false, Bool.not_false, if_true] at hs
        simp [classValidationFailure] at hs

/-- A successful class outcome carries a ≥6-digit code extending the
family's zero-padded code, provided the candidate list satisfies the
repository filter. -/
theorem classifyClassOn_spec (o : Oracle) (cands : List Cand) (s fam : String)
    (hdb : ∀ c ∈ cands,
      6 ≤ c.code.data.length ∧ pyStartsWith c.code (zfill fam 4) = true)
    (hs : (classifyClassOn o cands s fam).success = true) :
    ∃ c, (classifyClassOn o cands s fam).code = some c ∧
      6 ≤ c.data.length ∧ pyStartsWith c (zfill fam 4) = true := by
  by_cases he : cands.isEmpty
  · simp only [classifyClassOn, he, if_true] at hs
    simp at hs
  · have hne : cands ≠ [] := by
      intro h0; rw [h0] at he; exact he rfl
    cases ho : o.cls s fam (cands.take 12) with
    | none =>
        simp only [classifyClassOn, he, ho, Bool.false_eq_true, if_false]
          at hs ⊢
        obtain ⟨-, c, hc, hcode⟩ := classFallback_success cands s fam hne
        obtain ⟨hl, hpre⟩ := hdb c hc
        exact ⟨c.code, hcode, hl, hpre⟩
    | some d =>
        simp only [classifyClassOn, he, ho, Bool.false_eq_true, if_false]
          at hs ⊢
        obtain ⟨c, hcode, hl, hpre⟩ := validateClass_spec cands d fam hs
        exact ⟨c, hcode, le_of_eq hl.symm, hpre⟩

/-- A successful commodity validation carries an 8-digit code found among
the candidates, and its complete hierarchy (when present) is exactly the
database's ancestors lookup for that code. -/
theorem validateCommodity_spec (r : Repo) (cands : List Cand) (d : Parsed)
    (cls : String)
    (hs : (validateCommodity r cands d cls).success = true) :
    ∃ c, (validateCommodity r cands d cls).code = some c ∧
      (((∃ x ∈ cands, x.code = c) ∧ c.data.length = 8 ∧
        (validateCommodity r cands d cls).completeHierarchy =
          dbGetCommodityWithHierarchy r c) ∨
      ((∃ x ∈ cands, x.code = c) ∧
        (validateCommodity r cands d cls).completeHierarchy = none)) := by
  by_cases hcf : isConfused d = true
  · simp only [validateCommodity, hcf, if_true] at hs
    simp [confusedOutcome] at hs
  · by_cases hbf : badFormat d 8 = true
    · simp only [validateCommodity, hcf, hbf, Bool.false_eq_true, if_false,
        if_true] at hs ⊢
      obtain ⟨-, c, hc, hcode⟩ := commodityFallback_success cands "" cls
        (by intro h0; rw [h0] at hs; simp [commodityFallback] at hs)
      exact ⟨c.code, hcode, Or.inr ⟨⟨c, hc, rfl⟩, by
        rcases cands with _ | ⟨c0, rest⟩
        · simp [commodityFallback] at hs
        · cases hd : fbScoresDict (c0 :: rest) (pyLower "") commodityStops with
          | nil => unfold commodityFallback; rw [hd]
          | cons h t => unfold commodityFallback; rw [hd]⟩⟩
    · simp only [Bool.not_eq_true] at hcf hbf
      cases hfind : cands.find?
          (fun c => c.code == zfill (d.code.getD "") 8) with
      | none =>
          simp only [validateCommodity, hcf, hbf, hfind, Bool.false_eq_true,
            if_false] at hs ⊢
          obtain ⟨-, c, hc, hcode⟩ := commodityFallback_success cands "" cls
            (by intro h0; rw [h0] at hs; simp [commodityFallback] at hs)
          exact ⟨c.code, hcode, Or.inr ⟨⟨c, hc, rfl⟩, by
            rcases cands with _ | ⟨c0, rest⟩
            · simp [commodityFallback] at hs
            · cases hd : fbScoresDict (c0 :: rest) (pyLower "")
                  commodityStops with
              | nil => unfold commodityFallback; rw [hd]
              | cons h t => unfold commodityFallback; rw [hd]⟩⟩
      | some x =>
          simp only [validateCommodity, hcf, hbf, hfind, Bool.false_eq_true,
            if_false]
          refine ⟨zfill (d.code.getD "") 8, rfl, Or.inl ⟨⟨x, ?_, ?_⟩,
            badFormat_false_length d 8 hbf, rfl⟩⟩
          · exact List.mem_of_find?_eq_some hfind
          · have hxx := List.find?_some hfind
            exact beq_iff_eq.mp hxx

/-- A successful commodity outcome carries a ≥8-digit code extending the
class's zero-padded code; when it carries a complete hierarchy, the code is
exactly 8 digits and the hierarchy is the database ancestors lookup. -/
theorem classifyCommodityOn_spec (o : Oracle) (r : Repo) (cands : List Cand)
    (s cls : String)
    (hdb : ∀ c ∈ cands,
      8 ≤ c.code.data.length ∧ pyStartsWith c.code (zfill cls 6) = true)
    (hs : (classifyCommodityOn o r cands s cls).success = true) :
    ∃ c, (classifyCommodityOn o r cands s cls).code = some c ∧
      8 ≤ c.data.length ∧ pyStartsWith c (zfill cls 6) = true ∧
      (∃ x ∈ cands, x.code = c) ∧
      (∀ h, (classifyCommodityOn o r cands s cls).completeHierarchy = some h →
        c.data.length = 8 ∧ dbGetCommodityWithHierarchy r c = some h) := by
  by_cases he : cands.isEmpty
  · simp only [classifyCommodityOn, he, if_true] at hs
    simp at hs
  · have hne : cands ≠ [] := by
      intro h0; rw [h0] at he; exact he rfl
    cases ho : o.comm s cls (cands.take 15) with
    | none =>
        simp only [classifyCommodityOn, he, ho, Bool.false_eq_true, if_false]
          at hs ⊢
        obtain ⟨-, c, hc, hcode⟩ := commodityFallback_success cands s cls hne
        obtain ⟨hl, hpre⟩ := hdb c hc
        refine ⟨c.code, hcode, hl, hpre, ⟨c, hc, rfl⟩, ?_⟩
        intro h hh
        exfalso
        rcases cands with _ | ⟨c0, rest⟩
        · exact hne rfl
        · cases hd : fbScoresDict (c0 :: rest) (pyLower s) commodityStops with
          | nil =>
              unfold commodityFallback at hh
              rw [hd] at hh
              cases hh
          | cons a t =>
              unfold commodityFallback at hh
              rw [hd] at hh
              cases hh
    | some d =>
        simp only [classifyCommodityOn, he, ho, Bool.false_eq_true, if_false]
          at hs ⊢
        obtain ⟨c, hcode, hrest⟩ := validateCommodity_spec r cands d cls hs
        rcases hrest with ⟨⟨x, hx, hxc⟩, hl, hh⟩ | ⟨⟨x, hx, hxc⟩, hh⟩
        · obtain ⟨hl8, hpre⟩ := hdb x hx
          refine ⟨c, hcode, le_of_eq hl.symm, by rw [← hxc]; exact hpre,
            ⟨x, hx, hxc⟩, ?_⟩
          intro hier hhier
          rw [hh] at hhier
          exact ⟨hl, hhier⟩
        · obtain ⟨hl8, hpre⟩ := hdb x hx
          refine ⟨c, hcode, by rw [← hxc]; exact hl8,
            by rw [← hxc]; exact hpre, ⟨x, hx, hxc⟩, ?_⟩
          intro hier hhier
          rw [hh] at hhier
          cases hhier

/-! ## Case analysis of the orchestrator -/

/-- The exhaustive branch structure of
`_perform_hierarchical_classification`: which classifier outcomes were
consulted and how they populated the result's code fields. -/
theorem perform_cases (o : Oracle) (r : Repo) (s : String) :
    (let res := perform o r s initRes
     let segR := classifySegment o r s
     let fb := segmentFallback (dbGetAllSegments r) s
     segR.success = false ∧ res.segmentCode = fb.code ∧
       res.segmentDescr = fb.descr ∧ res.familyCode = none ∧
       res.classCode = none ∧ res.commodityCode = none ∧
       res.confidence = "Low (Fallback)") ∨
    (let res := perform o r s initRes
     let segR := classifySegment o r s
     segR.success = true ∧ truthy segR.code = false ∧
       res.segmentCode = segR.code ∧ res.familyCode = none ∧
       res.classCode = none ∧ res.commodityCode = none) ∨
    (let res := perform o r s initRes
     let segR := classifySegment o r s
     let famR := classifyFamily o r s (segR.code.getD "")
     segR.success = true ∧ truthy segR.code = true ∧
       famR.success = false ∧
       res.segmentCode = segR.code ∧ res.familyCode = none ∧
       res.classCode = none ∧ res.commodityCode = none) ∨
    (let res := perform o r s initRes
     let segR := classifySegment o r s
     let famR := classifyFamily o r s (segR.code.getD "")
     segR.success = true ∧ truthy segR.code = true ∧
       famR.success = true ∧ truthy famR.code = false ∧
       res.segmentCode = segR.code ∧ res.familyCode = famR.code ∧
       res.classCode = none ∧ res.commodityCode = none) ∨
    (let res := perform o r s initRes
     let segR := classifySegment o r s
     let famR := classifyFamily o r s (segR.code.getD "")
     let clsR := classifyClass o r s (famR.code.getD "")
     segR.success = true ∧ truthy segR.code = true ∧
       famR.success = true ∧ truthy famR.code = true ∧
       clsR.success = false ∧
       res.segmentCode = segR.code ∧ res.familyCode = famR.code ∧
       res.classCode = none ∧ res.commodityCode = none) ∨
    (let res := perform o r s initRes
     let segR := classifySegment o r s
     let famR := classifyFamily o r s (segR.code.getD "")
     let clsR := classifyClass o r s (famR.code.getD "")
     segR.success = true ∧ truthy segR.code = true ∧
       famR.success = true ∧ truthy famR.code = true ∧
       clsR.success = true ∧ truthy clsR.code = false ∧
       res.segmentCode = segR.code ∧ res.familyCode = famR.code ∧
       res.classCode = clsR.code ∧ res.commodityCode = none) ∨
    (let res := perform o r s initRes
     let segR := classifySegment o r s
     let famR := classifyFamily o r s (segR.code.getD "")
     let clsR := classifyClass o r s (famR.code.getD "")
     let comR := classifyCommodity o r s (clsR.code.getD "")
     let dec := reflect s comR
     segR.success = true ∧ truthy segR.code = true ∧
       famR.success = true ∧ truthy famR.code = true ∧
       clsR.success = true ∧ truthy clsR.code = true ∧
       dec.useCommodity = false ∧
       res.segmentCode = segR.code ∧ res.familyCode = famR.code ∧
       res.classCode = clsR.code ∧ res.commodityCode = none ∧
       res.commodityDescr = none ∧ res.confidence = dec.confidence) ∨
    (let res := perform o r s initRes
     let segR := classifySegment o r s
     let famR := classifyFamily o r s (segR.code.getD "")
     let clsR := classifyClass o r s (famR.code.getD "")
     let comR := classifyCommodity o r s (clsR.code.getD "")
     let dec := reflect s comR
     segR.success = true ∧ truthy segR.code = true ∧
       famR.success = true ∧ truthy famR.code = true ∧
       clsR.success = true ∧ truthy clsR.code = true ∧
       dec.useCommodity = true ∧ dec.hierarchy = none ∧
       res.segmentCode = segR.code ∧ res.familyCode = famR.code ∧
       res.classCode = clsR.code ∧ res.commodityCode = dec.code ∧
       res.commodityDescr = dec.descr ∧ res.confidence = dec.confidence) ∨
    (let res := perform o r s initRes
     let segR := classifySegment o r s
     let famR := classifyFamily o r s (segR.code.getD "")
     let clsR := classifyClass o r s (famR.code.getD "")
     let comR := classifyCommodity o r s (clsR.code.getD "")
     let dec := reflect s comR
     ∃ h, segR.success = true ∧ truthy segR.code = true ∧
       famR.success = true ∧ truthy famR.code = true ∧
       clsR.success = true ∧ truthy clsR.code = true ∧
       dec.useCommodity = true ∧ dec.hierarchy = some h ∧
       res.segmentCode = some h.seg.code ∧
       res.segmentDescr = some h.seg.description ∧
       res.familyCode = some h.fam.code ∧
       res.familyDescr = some h.fam.description ∧
       res.classCode = some h.cls.code ∧
       res.classDescr = some h.cls.description ∧
       res.commodityCode = dec.code ∧ res.commodityDescr = dec.descr ∧
       res.confidence = dec.confidence) := by
  simp only
  by_cases h1 : (classifySegment o r s).success = true
  · by_cases h2 : truthy (classifySegment o r s).code = true
    · by_cases h3 :
          (classifyFamily o r s ((classifySegment o r s).code.getD "")).success
            = true
      · by_cases h4 : truthy
            (classifyFamily o r s ((classifySegment o r s).code.getD "")).code
              = true
        · by_cases h5 : (classifyClass o r s
              ((classifyFamily o r s
                ((classifySegment o r s).code.getD "")).code.getD "")).success
                  = true
          · by_cases h6 : truthy (classifyClass o r s
                ((classifyFamily o r s
                  ((classifySegment o r s).code.getD "")).code.getD "")).code
                    = true
            · by_cases h7 : (reflect s (classifyCommodity o r s
                  ((classifyClass o r s
                    ((classifyFamily o r s
                      ((classifySegment o r s).code.getD "")).code.getD
                        "")).code.getD ""))).useCommodity = true
              · cases hh : (reflect s (classifyCommodity o r s
                    ((classifyClass o r s
                      ((classifyFamily o r s
                        ((classifySegment o r s).code.getD "")).code.getD
                          "")).code.getD ""))).hierarchy with
                | none =>
                    refine Or.inr (Or.inr (Or.inr (Or.inr (Or.inr (Or.inr
                      (Or.inr (Or.inl ?_)))))))
                    simp only [perform, performWith, h1, h2, h3, h4, h5, h6,
                      if_true, applyReflection, h7, hh]
                    and_intros <;> first | rfl | trivial
                | some h =>
                    refine Or.inr (Or.inr (Or.inr (Or.inr (Or.inr (Or.inr
                      (Or.inr (Or.inr ⟨h, ?_⟩)))))))
                    simp only [perform, performWith, h1, h2, h3, h4, h5, h6,
                      if_true, applyReflection, h7, hh]
                    and_intros <;> first | rfl | trivial
              · refine Or.inr (Or.inr (Or.inr (Or.inr (Or.inr (Or.inr
                  (Or.inl ?_))))))
                simp only [Bool.not_eq_true] at h7
                simp only [perform, performWith, h1, h2, h3, h4, h5, h6,
                  if_true, applyReflection, h7]
                simp only [Bool.false_eq_true, if_false]
                and_intros <;> first | rfl | trivial
            · refine Or.inr (Or.inr (Or.inr (Or.inr (Or.inr (Or.inl ?_)))))
              simp only [Bool.not_eq_true] at h6
              simp only [perform, performWith, h1, h2, h3, h4, h5, h6,
                if_true]
              simp only [Bool.false_eq_true, if_false]
              and_intros <;> first | rfl | trivial
          · refine Or.inr (Or.inr (Or.inr (Or.inr (Or.inl ?_))))
            simp only [Bool.not_eq_true] at h5
            simp only [perform, performWith, h1, h2, h3, h4, h5, if_true]
            simp only [Bool.false_eq_true, if_false]
            and_intros <;> first | rfl | trivial
        · refine Or.inr (Or.inr (Or.inr (Or.inl ?_)))
          simp only [Bool.not_eq_true] at h4
          simp only [perform, performWith, h1, h2, h3, h4, if_true]
          simp only [Bool.false_eq_true, if_false]
          and_intros <;> first | rfl | trivial
      · refine Or.inr (Or.inr (Or.inl ?_))
        simp only [Bool.not_eq_true] at h3
        simp only [perform, performWith, h1, h2, h3, if_true]
        simp only [Bool.false_eq_true, if_false]
        and_intros <;> first | rfl | trivial
    · refine Or.inr (Or.inl ?_)
      simp only [Bool.not_eq_true] at h2
      simp only [perform, performWith, h1, h2, if_true]
      simp only [Bool.false_eq_true, if_false]
      and_intros <;> first | rfl | trivial
  · refine Or.inl ?_
    simp only [Bool.not_eq_true] at h1
    have hfb := (segmentFallback_spec (dbGetAllSegments r) s).1
    simp only [perform, performWith, h1, hfb, if_true]
    simp only [Bool.false_eq_true, if_false]
    and_intros <;> first | rfl | trivial

/-- A committing reflection decision echoes the commodity outcome's code,
description and hierarchy, and presupposes its success. -/
theorem reflect_commit (s : String) (cr : LevelOutcome)
    (h : (reflect s cr).useCommodity = true) :
    cr.success = true ∧ (reflect s cr).code = cr.code ∧
    (reflect s cr).descr = cr.descr ∧
    (reflect s cr).hierarchy = cr.completeHierarchy := by
  by_cases hs : cr.success = true
  · by_cases hh : pyContains (pyLower cr.confidence) "high" = true
    · simp only [reflect, hs, hh, if_true]
      and_intros <;> first | rfl | trivial
    · simp only [Bool.not_eq_true] at hh
      by_cases hm : pyContains (pyLower cr.confidence) "medium" = true
      · by_cases hg : (genericTerms.any
            (fun t => pyContains (pyLower (cr.descr.getD "")) t)) = true
        · simp only [reflect, hs, hh, hm, hg, if_true, Bool.false_eq_true,
            if_false, Bool.not_true] at h
        · simp only [Bool.not_eq_true] at hg
          simp only [reflect, hs, hh, hm, hg, if_true, Bool.false_eq_true,
            if_false, Bool.not_false]
          and_intros <;> first | rfl | trivial
      · simp only [Bool.not_eq_true] at hm
        by_cases ho : (meaningfulOverlap s (cr.descr.getD "")).length ≥ 2
        · simp only [reflect, hs, hh, hm, ho, if_true, Bool.false_eq_true,
            if_false]
          and_intros <;> first | rfl | trivial
        · simp only [reflect, hs, hh, hm, ho, if_true, Bool.false_eq_true,
            if_false] at h
  · simp only [Bool.not_eq_true] at hs
    simp only [reflect, hs, Bool.false_eq_true, if_false] at h

theorem truthy_of_some_len (o : Option String) (c : String) (w : Nat)
    (hc : o = some c) (hl : w ≤ c.data.length) (hw : 0 < w) :
    truthy o = true := by
  rw [hc]
  refine truthy_some_of_ne c ?_
  intro he
  subst he
  simp at hl
  omega

/-- A result with a truthy segment or commodity code finalizes
successfully at a real level. -/
theorem finalize_success_of_truthy (res : CRes)
    (h : truthy res.segmentCode = true ∨ truthy res.commodityCode = true) :
    (finalize res).success = true ∧
    (finalize res).classificationLevel ≠ "none" := by
  obtain ⟨-, hsu, -, hlv⟩ := finalize_fields res
  constructor
  · rw [hsu]
    rcases h with h | h <;> simp [h]
  · rw [hlv]
    by_cases h1 : truthy res.commodityCode = true
    · simp [h1]
    · by_cases h2 : truthy res.classCode = true
      · simp [h1, h2]
      · by_cases h3 : truthy res.familyCode = true
        · simp [h1, h2, h3]
        · rcases h with h | h
          · simp [h1, h2, h3, h]
          · exact absurd h h1

/-- C4 counterexample: with an empty Segment candidate set the
classification does NOT abort: the segment fallback commits the keyword-map
segment ("40" for a pump summary) and the run finalizes with success=true
and a non-empty hierarchy. -/
theorem empty_segment_set_no_abort_cex :
    (classifyProduct silentOracle emptyRepo "industrial pump").success
      = true ∧
    (classifyProduct silentOracle emptyRepo "industrial pump").segmentCode
      = some "40" ∧
    (classifyProduct silentOracle emptyRepo "industrial pump").breakdown
      ≠ [] ∧
    (classifyProduct silentOracle emptyRepo "zzz").segmentCode = some "23" := by
  refine ⟨?_, ?_, ?_, ?_⟩ <;> decide

/-- C4 amended: no input aborts the classification chain: for every oracle,
repository and summary, `classify_product` returns `success=true` at some
achieved level (even when the Segment candidate set is empty, because the
orchestrator's segment fallback always commits a hard-coded segment). -/
theorem classify_never_aborts (o : Oracle) (r : Repo) (s : String) :
    (classifyProduct o r s).success = true ∧
    (classifyProduct o r s).classificationLevel ≠ "none" := by
  have hcp : classifyProduct o r s = finalize (perform o r s initRes) := rfl
  rw [hcp]
  rcases perform_cases o r s with
    ⟨hs, hseg, -, -, -, -, -⟩ | ⟨hs, ht, hseg, -, -, -⟩ |
    ⟨hs, ht, -, hseg, -, -, -⟩ | ⟨hs, ht, -, -, hseg, -, -, -⟩ |
    ⟨hs, ht, -, -, -, hseg, -, -, -⟩ | ⟨hs, ht, -, -, -, -, hseg, -, -, -⟩ |
    ⟨hs, ht, -, -, -, -, -, hseg, -, -, -, -, -⟩ |
    ⟨hs, ht, -, -, -, -, hu, hh, hseg, -, -, hcm, -, -⟩ |
    ⟨h, hs, ht, -, -, -, -, hu, hh, -, -, -, -, -, -, hcm, -, -⟩
  · obtain ⟨-, c, hc, hl⟩ := segmentFallback_spec (dbGetAllSegments r) s
    refine finalize_success_of_truthy _ (Or.inl ?_)
    rw [hseg]
    exact truthy_of_some_len _ c 2 hc (le_of_eq hl.symm) (by omega)
  · obtain ⟨c, hc, hl⟩ := classifySegmentOn_spec o (dbGetAllSegments r) s hs
    rw [show (classifySegment o r s).code =
      (classifySegmentOn o (dbGetAllSegments r) s).code from rfl, hc] at ht
    rw [truthy_of_some_len _ c 2 rfl (le_of_eq hl.symm) (by omega)] at ht
    cases ht
  · exact finalize_success_of_truthy _ (Or.inl (by rw [hseg]; exact ht))
  · exact finalize_success_of_truthy _ (Or.inl (by rw [hseg]; exact ht))
  · exact finalize_success_of_truthy _ (Or.inl (by rw [hseg]; exact ht))
  · exact finalize_success_of_truthy _ (Or.inl (by rw [hseg]; exact ht))
  · exact finalize_success_of_truthy _ (Or.inl (by rw [hseg]; exact ht))
  · refine finalize_success_of_truthy _ (Or.inr ?_)
    obtain ⟨hsu, hcode, -, -⟩ := reflect_commit s _ hu
    obtain ⟨c, hc, hl, -, -, -⟩ := classifyCommodityOn_spec o r _ s _
      (dbGetCommodities_mem r _) hsu
    rw [hcm, hcode]
    exact truthy_of_some_len _ c 8 hc hl (by omega)
  · refine finalize_success_of_truthy _ (Or.inr ?_)
    obtain ⟨hsu, hcode, -, -⟩ := reflect_commit s _ hu
    obtain ⟨c, hc, hl, -, -, -⟩ := classifyCommodityOn_spec o r _ s _
      (dbGetCommodities_mem r _) hsu
    rw [hcm, hcode]
    exact truthy_of_some_len _ c 8 hc hl (by omega)

/-- Finalization does not modify the level code fields or the confidence. -/
theorem finalize_frame (res : CRes) :
    (finalize res).segmentCode = res.segmentCode ∧
    (finalize res).familyCode = res.familyCode ∧
    (finalize res).classCode = res.classCode ∧
    (finalize res).commodityCode = res.commodityCode ∧
    (finalize res).confidence = res.confidence := by
  have he : finalize res = setFinalLevel (setCompleteCode
      { buildBreakdown res with
        fullHierarchyPath := pathString (buildBreakdown res) }) := rfl
  rw [he]
  generalize hA : buildBreakdown res = A
  have hAf := buildBreakdown_fields res
  rw [hA] at hAf
  obtain ⟨a1, a2, a3, a4, -, -, -, -, -, -, -, a12⟩ := hAf
  generalize hB : ({ A with fullHierarchyPath := pathString A } : CRes) = B
  have hBf : B.segmentCode = A.segmentCode ∧ B.familyCode = A.familyCode ∧
      B.classCode = A.classCode ∧ B.commodityCode = A.commodityCode ∧
      B.confidence = A.confidence := by
    rw [← hB]; exact ⟨rfl, rfl, rfl, rfl, rfl⟩
  obtain ⟨b1, b2, b3, b4, b5⟩ := hBf
  obtain ⟨-, c2, c3, c4, c5, -, -, -, -, -, -, c12⟩ := setCompleteCode_frame B
  obtain ⟨-, -, d3, d4, d5, d6, d7⟩ := setFinalLevel_frame (setCompleteCode B)
  exact ⟨by rw [d3, c2, b1, a1], by rw [d4, c3, b2, a2],
    by rw [d5, c4, b3, a3], by rw [d6, c5, b4, a4],
    by rw [d7, c12, b5, a12]⟩

/-- A CONFUSED segment answer fails segment validation. -/
theorem validateSegment_confused (segs : List Cand) (d : Parsed)
    (hc : isConfused d = true) :
    (validateSegment segs d).success = false ∧
    (validateSegment segs d).confidence = "CONFUSED" := by
  simp [validateSegment, hc, confusedOutcome]

/-- A CONFUSED family answer fails family validation. -/
theorem validateFamily_confused (fams : List Cand) (d : Parsed) (seg : String)
    (hc : isConfused d = true) :
    (validateFamily fams d seg).success = false ∧
    (validateFamily fams d seg).confidence = "CONFUSED" := by
  simp [validateFamily, hc, confusedOutcome]

/-- C6 counterexample: a CONFUSED Segment answer yields the CONFUSED level
outcome, but the orchestrator then invokes the keyword Fallback Procedure
on the summary and commits its segment ("40" for a pump summary) with
confidence "Low (Fallback)" — it does not stop with no result. -/
theorem segment_confused_triggers_fallback_cex :
    (classifySegment confusedSegOracle oneSegRepo "industrial pump").success
      = false ∧
    (classifySegment confusedSegOracle oneSegRepo
      "industrial pump").confidence = "CONFUSED" ∧
    (classifyProduct confusedSegOracle oneSegRepo
      "industrial pump").segmentCode = some "40" ∧
    (classifyProduct confusedSegOracle oneSegRepo
      "industrial pump").confidence = "Low (Fallback)" := by
  refine ⟨?_, ?_, ?_, ?_⟩ <;> decide

/-- C6 amended: a parsed CONFUSED answer yields `success=false` with
confidence CONFUSED at every level, and at the Family, Class and Commodity
levels the orchestrator then halts, keeping the parent level's result (shown
here for Family: no family/class/commodity is committed).  At the Segment
level, however, the orchestrator reacts to the failed outcome by invoking
the keyword fallback on the product summary and committing its segment with
confidence "Low (Fallback)". -/
theorem confused_handling :
    (∀ (segs : List Cand) (d : Parsed), isConfused d = true →
      (validateSegment segs d).success = false ∧
      (validateSegment segs d).confidence = "CONFUSED") ∧
    (∀ (fams : List Cand) (d : Parsed) (seg : String), isConfused d = true →
      (validateFamily fams d seg).success = false ∧
      (validateFamily fams d seg).confidence = "CONFUSED") ∧
    (∀ (cands : List Cand) (d : Parsed) (fam : String), isConfused d = true →
      (validateClass cands d fam).success = false ∧
      (validateClass cands d fam).confidence = "CONFUSED" ∧
      (validateClass cands d fam).fallbackToFamily = true) ∧
    (∀ (r : Repo) (cands : List Cand) (d : Parsed) (cls : String),
      isConfused d = true →
      (validateCommodity r cands d cls).success = false ∧
      (validateCommodity r cands d cls).confidence = "CONFUSED") ∧
    (∀ (o : Oracle) (r : Repo) (s : String),
      (∀ seg cands, ∃ d, o.fam s seg cands = some d ∧ isConfused d = true) →
      (classifyProduct o r s).familyCode = none ∧
      (classifyProduct o r s).classCode = none ∧
      (classifyProduct o r s).commodityCode = none) ∧
    (∀ (o : Oracle) (r : Repo) (s : String),
      (∃ d, o.seg s ((dbGetAllSegments r).take 20) = some d ∧
        isConfused d = true) →
      (dbGetAllSegments r).isEmpty = false →
      (classifyProduct o r s).segmentCode =
        (segmentFallback (dbGetAllSegments r) s).code ∧
      (classifyProduct o r s).confidence = "Low (Fallback)") := by
  refine ⟨?_, ?_, ?_, ?_, ?_, ?_⟩
  · intro segs d hc
    exact validateSegment_confused segs d hc
  · intro fams d seg hc
    exact validateFamily_confused fams d seg hc
  · intro cands d fam hc
    simp [validateClass, hc, confusedOutcome]
  · intro r cands d cls hc
    simp [validateCommodity, hc, confusedOutcome]
  · intro o r s hf
    have hfam : ∀ segCode,
        (classifyFamily o r s segCode).success = false := by
      intro segCode
      unfold classifyFamily classifyFamilyOn
      by_cases he : (dbGetFamilies r segCode).isEmpty
      · simp [he]
      · obtain ⟨d, hd, hc⟩ := hf segCode ((dbGetFamilies r segCode).take 10)
        simp only [he, Bool.false_eq_true, if_false, hd]
        exact (validateFamily_confused _ d segCode hc).1
    have hcp : classifyProduct o r s = finalize (perform o r s initRes) := rfl
    obtain ⟨-, hfr, hcr, hmr, -⟩ := finalize_frame (perform o r s initRes)
    rw [hcp, hfr, hcr, hmr]
    rcases perform_cases o r s with
      ⟨-, -, -, hf1, hc1, hm1, -⟩ | ⟨-, -, -, hf1, hc1, hm1⟩ |
      ⟨-, -, -, -, hf1, hc1, hm1⟩ | ⟨-, -, hsu, -, -, -, -, -⟩ |
      ⟨-, -, hsu, -, -, -, -, -, -⟩ | ⟨-, -, hsu, -, -, -, -, -, -, -⟩ |
      ⟨-, -, hsu, -, -, -, -, -, -, -, -, -, -⟩ |
      ⟨-, -, hsu, -, -, -, -, -, -, -, -, -, -, -⟩ |
      ⟨h, -, -, hsu, -, -, -, -, -, -, -, -, -, -, -, -, -, -⟩ <;>
      first
        | exact ⟨hf1, hc1, hm1⟩
        | (rw [hfam _] at hsu; cases hsu)
  · intro o r s hso hne
    obtain ⟨d, hd, hc⟩ := hso
    have hseg : (classifySegment o r s).success = false := by
      unfold classifySegment classifySegmentOn
      simp only [hne, Bool.false_eq_true, if_false, hd]
      exact (validateSegment_confused (dbGetAllSegments r) d hc).1
    have hcp : classifyProduct o r s = finalize (perform o r s initRes) := rfl
    obtain ⟨hsr, -, -, -, hconf⟩ := finalize_frame (perform o r s initRes)
    rw [hcp, hsr, hconf]
    rcases perform_cases o r s with
      ⟨-, hs1, -, -, -, -, hc1⟩ | ⟨hsu, -, -, -, -, -⟩ |
      ⟨hsu, -, -, -, -, -, -⟩ | ⟨hsu, -, -, -, -, -, -, -⟩ |
      ⟨hsu, -, -, -, -, -, -, -, -⟩ | ⟨hsu, -, -, -, -, -, -, -, -, -⟩ |
      ⟨hsu, -, -, -, -, -, -, -, -, -, -, -, -⟩ |
      ⟨hsu, -, -, -, -, -, -, -, -, -, -, -, -, -⟩ |
      ⟨h, hsu, -, -, -, -, -, -, -, -, -, -, -, -, -, -, -, -⟩ <;>
      first
        | exact ⟨hs1, hc1⟩
        | (rw [hseg] at hsu; cases hsu)

/-- C10: committing a commodity whose outcome carries a successful
complete-hierarchy lookup overwrites the segment, family and class fields
with the looked-up ancestors; committing without a hierarchy, or
retreating, leaves those fields unchanged (and a retreat resets the
commodity fields to None).  The hierarchy a successful commodity validation
carries is exactly the database ancestors lookup of the committed code (or
absent when that lookup fails), and reflection passes it through
unchanged. -/
theorem reflection_overwrite_frame :
    (∀ (res : CRes) (dec : ReflectDecision) (h : Hier),
      dec.useCommodity = true → dec.hierarchy = some h →
      (applyReflection res dec).segmentCode = some h.seg.code ∧
      (applyReflection res dec).segmentDescr = some h.seg.description ∧
      (applyReflection res dec).familyCode = some h.fam.code ∧
      (applyReflection res dec).familyDescr = some h.fam.description ∧
      (applyReflection res dec).classCode = some h.cls.code ∧
      (applyReflection res dec).classDescr = some h.cls.description ∧
      (applyReflection res dec).commodityCode = dec.code ∧
      (applyReflection res dec).commodityDescr = dec.descr) ∧
    (∀ (res : CRes) (dec : ReflectDecision),
      dec.useCommodity = true → dec.hierarchy = none →
      (applyReflection res dec).segmentCode = res.segmentCode ∧
      (applyReflection res dec).segmentDescr = res.segmentDescr ∧
      (applyReflection res dec).familyCode = res.familyCode ∧
      (applyReflection res dec).familyDescr = res.familyDescr ∧
      (applyReflection res dec).classCode = res.classCode ∧
      (applyReflection res dec).classDescr = res.classDescr ∧
      (applyReflection res dec).commodityCode = dec.code ∧
      (applyReflection res dec).commodityDescr = dec.descr) ∧
    (∀ (res : CRes) (dec : ReflectDecision),
      dec.useCommodity = false →
      (applyReflection res dec).segmentCode = res.segmentCode ∧
      (applyReflection res dec).segmentDescr = res.segmentDescr ∧
      (applyReflection res dec).familyCode = res.familyCode ∧
      (applyReflection res dec).familyDescr = res.familyDescr ∧
      (applyReflection res dec).classCode = res.classCode ∧
      (applyReflection res dec).classDescr = res.classDescr ∧
      (applyReflection res dec).commodityCode = none ∧
      (applyReflection res dec).commodityDescr = none ∧
      (applyReflection res dec).confidence = dec.confidence) ∧
    (∀ (r : Repo) (cands : List Cand) (d : Parsed) (cls : String),
      (validateCommodity r cands d cls).success = true →
      (validateCommodity r cands d cls).completeHierarchy =
        dbGetCommodityWithHierarchy r
          ((validateCommodity r cands d cls).code.getD "") ∨
      (validateCommodity r cands d cls).completeHierarchy = none) ∧
    (∀ (s : String) (cr : LevelOutcome), (reflect s cr).useCommodity = true →
      (reflect s cr).hierarchy = cr.completeHierarchy) := by
  refine ⟨?_, ?_, ?_, ?_, ?_⟩
  · intro res dec h hu hh
    simp only [applyReflection, hu, if_true, hh]
    and_intros <;> first | rfl | trivial
  · intro res dec hu hh
    simp only [applyReflection, hu, if_true, hh]
    and_intros <;> first | rfl | trivial
  · intro res dec hu
    simp only [applyReflection, hu, Bool.false_eq_true, if_false]
    and_intros <;> first | rfl | trivial
  · intro r cands d cls hs
    obtain ⟨c, hcode, hrest⟩ := validateCommodity_spec r cands d cls hs
    rcases hrest with ⟨-, -, hh⟩ | ⟨-, hh⟩
    · left
      rw [hh, hcode]
      rfl
    · right
      exact hh
  · intro s cr hu
    exact (reflect_commit s cr hu).2.2.2

/-- Witness for C10 at a concrete decision carrying a hierarchy. -/
theorem reflection_overwrite_frame_witness :
    (applyReflection
      { segmentCode := some "39", confidence := "High" }
      { useCommodity := true, code := some "40151501",
        descr := some "Hydraulic gear pumps", confidence := "High",
        hierarchy := some ⟨⟨"40", "Distribution"⟩, ⟨"4015", "Fluid handling"⟩,
          ⟨"401515", "Pumps"⟩, ⟨"40151501", "Hydraulic gear pumps"⟩⟩,
        reasoning := "" }).segmentCode = some "40" ∧
    (applyReflection
      { segmentCode := some "39", confidence := "High" }
      { useCommodity := false, confidence := "Medium (Class level)",
        reasoning := "" }).segmentCode = some "39" := by
  constructor
  · exact (reflection_overwrite_frame.1 _ _
      ⟨⟨"40", "Distribution"⟩, ⟨"4015", "Fluid handling"⟩,
        ⟨"401515", "Pumps"⟩, ⟨"40151501", "Hydraulic gear pumps"⟩⟩
      rfl rfl).1
  · exact (reflection_overwrite_frame.2.2.1 _ _ rfl).1

/-- Generic first-maximum fold membership. -/
theorem foldl_max_mem {α : Type} (h : α) (t : List α)
    (pick : α → α → α) (hp : ∀ b p, pick b p = p ∨ pick b p = b) :
    t.foldl pick h ∈ h :: t := by
  induction t generalizing h with
  | nil => exact List.mem_cons_self h []
  | cons x xs ih =>
      have hm := ih (pick h x)
      rcases List.mem_cons.mp hm with h1 | h1
      · rcases hp h x with h2 | h2
        · rw [List.foldl_cons, h1, h2]
          exact List.mem_cons.mpr (Or.inr (List.mem_cons_self x xs))
        · rw [List.foldl_cons, h1, h2]
          exact List.mem_cons_self h (x :: xs)
      · rw [List.foldl_cons]
        exact List.mem_cons.mpr (Or.inr (List.mem_cons.mpr (Or.inr h1)))

/-- Projecting candidate pairs to code pairs commutes with the
first-maximum fold. -/
theorem foldl_pick_code (h : Cand × Nat) (t : List (Cand × Nat)) :
    (t.map (fun p => (p.1.code, p.2))).foldl
        (fun b p => if p.2 > b.2 then p else b) (h.1.code, h.2) =
      ((t.foldl (fun b p => if p.2 > b.2 then p else b) h).1.code,
       (t.foldl (fun b p => if p.2 > b.2 then p else b) h).2) := by
  induction t generalizing h with
  | nil => rfl
  | cons x xs ih =>
      simp only [List.map_cons, List.foldl_cons]
      by_cases hgt : x.2 > h.2
      · simp only [hgt, if_true]
        exact ih x
      · simp only [hgt, if_false]
        exact ih h

/-- With no key collision, Python dict assignment appends. -/
theorem dictInsert_append (d : List (String × Nat)) (k : String) (v : Nat)
    (h : ∀ p ∈ d, p.1 ≠ k) : dictInsert d k v = d ++ [(k, v)] := by
  unfold dictInsert
  have : (d.any (fun p => p.1 == k)) = false := by
    rw [List.any_eq_false]
    intro p hp
    simp only [beq_iff_eq]
    exact h p hp
  rw [this]
  simp

/-- With pairwise-distinct candidate codes, the fallback score dict is the
positive-score slice of the scored candidate list, code-projected. -/
theorem fbScoresDict_eq (cands : List Cand) (sl : String)
    (stops : List String) (hnd : (cands.map (fun c => c.code)).Nodup) :
    fbScoresDict cands sl stops =
      ((cands.map (fun c => (c, fbScore sl c.description stops))).filter
        (fun p => 0 < p.2)).map (fun p => (p.1.code, p.2)) := by
  unfold fbScoresDict
  suffices key : ∀ (l : List Cand) (acc : List (String × Nat)),
      (l.map (fun c => c.code)).Nodup →
      (∀ c ∈ l, ∀ p ∈ acc, p.1 ≠ c.code) →
      l.foldl (fun acc c =>
        let s := fbScore sl c.description stops
        if s > 0 then dictInsert acc c.code s else acc) acc =
      acc ++ ((l.map (fun c => (c, fbScore sl c.description stops))).filter
        (fun p => 0 < p.2)).map (fun p => (p.1.code, p.2)) by
    have := key cands [] hnd (by simp)
    simpa using this
  intro l
  induction l with
  | nil => intro acc _ _; simp
  | cons x xs ih =>
      intro acc hnd hdisj
      simp only [List.foldl_cons]
      simp only [List.map_cons, List.nodup_cons] at hnd
      by_cases hs : fbScore sl x.description stops > 0
      · rw [if_pos hs]
        rw [dictInsert_append acc x.code _
          (fun p hp => hdisj x (List.mem_cons_self x xs) p hp)]
        rw [ih (acc ++ [(x.code, fbScore sl x.description stops)]) hnd.2 ?_]
        · simp only [List.map_cons, List.filter_cons]
          rw [if_pos (by simpa using hs)]
          simp
        · intro c hc p hp
          rcases List.mem_append.mp hp with h1 | h1
          · exact hdisj c (List.mem_cons.mpr (Or.inr hc)) p h1
          · simp only [List.mem_singleton] at h1
            rw [h1]
            intro he
            have he2 : x.code = c.code := he
            exact hnd.1 (by rw [he2]; exact List.mem_map.mpr ⟨c, hc, rfl⟩)
      · rw [if_neg hs]
        rw [ih acc hnd.2
          (fun c hc p hp => hdisj c (List.mem_cons.mpr (Or.inr hc)) p hp)]
        simp only [List.map_cons, List.filter_cons]
        rw [if_neg (by simpa using hs)]

/-- With pairwise-distinct codes, `find?` by a member's code returns that
member. -/
theorem find_by_code (cands : List Cand) (ch : Cand)
    (hnd : (cands.map (fun c => c.code)).Nodup) (hm : ch ∈ cands) :
    cands.find? (fun x => x.code == ch.code) = some ch := by
  induction cands with
  | nil => cases hm
  | cons c0 rest ih =>
      simp only [List.map_cons, List.nodup_cons] at hnd
      by_cases he : (c0.code == ch.code) = true
      · have hcc : c0.code = ch.code := beq_iff_eq.mp he
        rcases List.mem_cons.mp hm with h1 | h1
        · rw [List.find?_cons_of_pos (p := fun x => x.code == ch.code) rest he,
            h1]
        · exfalso
          exact hnd.1 (by rw [hcc]; exact List.mem_map.mpr ⟨ch, h1, rfl⟩)
      · have hne2 : ch ∈ rest := by
          rcases List.mem_cons.mp hm with h1 | h1
          · exfalso; rw [h1] at he; simp at he
          · exact h1
        rw [List.find?_cons_of_neg (p := fun x => x.code == ch.code) rest he]
        exact ih hnd.2 hne2

/-- The core correspondence between the code's fallback scoring and the
spec's procedure, under pairwise-distinct candidate codes. -/
theorem spec_choice_core (c0 : Cand) (rest : List Cand) (s : String)
    (stops : List String)
    (hnd : ((c0 :: rest).map (fun c => c.code)).Nodup) :
    (fbScoresDict (c0 :: rest) (pyLower s) stops = [] ∧
     specFallbackChoice (c0 :: rest) s stops = some (c0, "Very Low")) ∨
    (∃ h t ch, fbScoresDict (c0 :: rest) (pyLower s) stops = h :: t ∧
     specFallbackChoice (c0 :: rest) s stops = some (ch, "Low") ∧
     firstMaxBySnd h t = ch.code ∧
     (c0 :: rest).find? (fun x => x.code == ch.code) = some ch) := by
  have hdict := fbScoresDict_eq (c0 :: rest) (pyLower s) stops hnd
  have hspec : specFallbackChoice (c0 :: rest) s stops =
      match ((c0 :: rest).map
        (fun c => (c, fbScore (pyLower s) c.description stops))).filter
          (fun p => 0 < p.2) with
      | [] => some (c0, "Very Low")
      | h :: t =>
          some ((t.foldl (fun b p => if p.2 > b.2 then p else b) h).1,
            "Low") := rfl
  cases hpos : ((c0 :: rest).map
      (fun c => (c, fbScore (pyLower s) c.description stops))).filter
        (fun p => 0 < p.2) with
  | nil =>
      left
      constructor
      · rw [hdict, hpos]
        rfl
      · rw [hspec, hpos]
  | cons ph pt =>
      right
      set m := pt.foldl (fun b p => if p.2 > b.2 then p else b) ph with hm
      refine ⟨(ph.1.code, ph.2), pt.map (fun p => (p.1.code, p.2)), m.1,
        ?_, ?_, ?_, ?_⟩
      · rw [hdict, hpos]
        rfl
      · rw [hspec, hpos]
      · unfold firstMaxBySnd
        rw [foldl_pick_code ph pt]
      · have hmem : m ∈ ph :: pt := by
          rw [hm]
          refine foldl_max_mem ph pt _ ?_
          intro b p
          by_cases hgt : p.2 > b.2
          · left; simp [hgt]
          · right; simp [hgt]
        rw [← hpos] at hmem
        have hmem2 := List.mem_filter.mp hmem
        rcases List.mem_map.mp hmem2.1 with ⟨c, hc, he⟩
        have hm1 : m.1 ∈ c0 :: rest := by
          rw [← he]
          exact hc
        exact find_by_code (c0 :: rest) m.1 hnd hm1

/-- C5 counterexample: the Segment fallback ignores the candidate set
entirely (hard-coded keyword map); the spec's procedure would pick the
matching candidate "77" with "Low", but the code returns "40" — a code not
among the candidates.  The Family fallback likewise deviates: on an
all-zero overlap it returns confidence "Low", where the spec's procedure
says "Very Low". -/
theorem fallback_procedure_not_uniform_cex :
    (segmentFallback [⟨"77", "industrial pump"⟩] "industrial pump").code
      = some "40" ∧
    specFallbackChoice [⟨"77", "industrial pump"⟩] "industrial pump"
      classStops = some (⟨"77", "industrial pump"⟩, "Low") ∧
    (familyFallback [⟨"1011", "zzz qqq"⟩] "abcd" "10").confidence = "Low" ∧
    specFallbackChoice [⟨"1011", "zzz qqq"⟩] "abcd" classStops
      = some (⟨"1011", "zzz qqq"⟩, "Very Low") := by
  refine ⟨?_, ?_, ?_, ?_⟩ <;> decide

/-- C5 amended: the Class and Commodity fallbacks implement the spec's
keyword-overlap procedure (with their per-level stop-word sets, candidate
codes assumed pairwise distinct); the Segment fallback instead scores a
hard-coded keyword map (defaulting to segment 23 with "Very Low"), and the
Family fallback returns a pump-keyword family or the first family. -/
theorem keyword_fallback_class_commodity (cands : List Cand) (s f : String)
    (hnd : (cands.map (fun c => c.code)).Nodup) (hne : cands ≠ []) :
    (∃ ch conf, specFallbackChoice cands s classStops = some (ch, conf) ∧
      (classFallback cands s f).success = true ∧
      (classFallback cands s f).code = some ch.code ∧
      (classFallback cands s f).descr = some ch.description ∧
      (classFallback cands s f).confidence = conf) ∧
    (∃ ch conf, specFallbackChoice cands s commodityStops = some (ch, conf) ∧
      (commodityFallback cands s f).success = true ∧
      (commodityFallback cands s f).code = some ch.code ∧
      (commodityFallback cands s f).descr = some ch.description ∧
      (commodityFallback cands s f).confidence = conf) := by
  match cands, hne with
  | c0 :: rest, _ =>
    have hcf_nil : fbScoresDict (c0 :: rest) (pyLower s) classStops = [] →
        classFallback (c0 :: rest) s f =
          { success := true, code := some c0.code,
            descr := some c0.description, confidence := "Very Low",
            reasoning := some "Desperate fallback - first available class" } := by
      intro hdl
      unfold classFallback
      rw [hdl]
    have hcf_cons : ∀ h t,
        fbScoresDict (c0 :: rest) (pyLower s) classStops = h :: t →
        classFallback (c0 :: rest) s f =
          { success := true, code := some (firstMaxBySnd h t),
            descr := some ((((c0 :: rest).find?
              (fun c => c.code == firstMaxBySnd h t)).map
                (fun x => x.description)).getD "Unknown class"),
            confidence := "Low",
            reasoning := some "Fallback keyword-based classification" } := by
      intro h t hdl
      unfold classFallback
      rw [hdl]
    have hcm_nil : fbScoresDict (c0 :: rest) (pyLower s) commodityStops = [] →
        commodityFallback (c0 :: rest) s f =
          { success := true, code := some c0.code,
            descr := some c0.description, confidence := "Very Low",
            reasoning :=
              some "Desperate fallback - first available commodity" } := by
      intro hdl
      unfold commodityFallback
      rw [hdl]
    have hcm_cons : ∀ h t,
        fbScoresDict (c0 :: rest) (pyLower s) commodityStops = h :: t →
        commodityFallback (c0 :: rest) s f =
          { success := true, code := some (firstMaxBySnd h t),
            descr := some ((((c0 :: rest).find?
              (fun c => c.code == firstMaxBySnd h t)).map
                (fun x => x.description)).getD "Unknown commodity"),
            confidence := "Low",
            reasoning := some "Fallback keyword-based classification" } := by
      intro h t hdl
      unfold commodityFallback
      rw [hdl]
    constructor
    · rcases spec_choice_core c0 rest s classStops hnd with
        ⟨hd, hsp⟩ | ⟨h, t, ch, hd, hsp, hbest, hfind⟩
      · rw [hcf_nil hd]
        exact ⟨c0, "Very Low", hsp, rfl, rfl, rfl, rfl⟩
      · rw [hcf_cons h t hd]
        refine ⟨ch, "Low", hsp, rfl, ?_, ?_, rfl⟩
        · simp only [hbest]
        · simp only [hbest, hfind]
          rfl
    · rcases spec_choice_core c0 rest s commodityStops hnd with
        ⟨hd, hsp⟩ | ⟨h, t, ch, hd, hsp, hbest, hfind⟩
      · rw [hcm_nil hd]
        exact ⟨c0, "Very Low", hsp, rfl, rfl, rfl, rfl⟩
      · rw [hcm_cons h t hd]
        refine ⟨ch, "Low", hsp, rfl, ?_, ?_, rfl⟩
        · simp only [hbest]
        · simp only [hbest, hfind]
          rfl

/-- Witness for the amended C5: the commodity fallback picks the
max-overlap candidate with "Low". -/
theorem keyword_fallback_class_commodity_witness :
    (commodityFallback
      [⟨"40151501", "Hydraulic gear pumps"⟩, ⟨"40151502", "Vane pumps"⟩]
      "hydraulic gear pumps unit" "401515").code = some "40151501" ∧
    (commodityFallback
      [⟨"40151501", "Hydraulic gear pumps"⟩, ⟨"40151502", "Vane pumps"⟩]
      "hydraulic gear pumps unit" "401515").confidence = "Low" := by
  obtain ⟨-, ch, conf, hsp, -, hcode, -, hconf⟩ :=
    keyword_fallback_class_commodity
      [⟨"40151501", "Hydraulic gear pumps"⟩, ⟨"40151502", "Vane pumps"⟩]
      "hydraulic gear pumps unit" "401515" (by decide) (by decide)
  have hch : ch = ⟨"40151501", "Hydraulic gear pumps"⟩ ∧ conf = "Low" := by
    have : specFallbackChoice
        [⟨"40151501", "Hydraulic gear pumps"⟩, ⟨"40151502", "Vane pumps"⟩]
        "hydraulic gear pumps unit" commodityStops =
        some (⟨"40151501", "Hydraulic gear pumps"⟩, "Low") := by decide
    rw [this] at hsp
    cases hsp
    exact ⟨rfl, rfl⟩
  rw [hcode, hconf, hch.1, hch.2]
  exact ⟨rfl, rfl⟩

/-! ## Prefix-invariant machinery -/

/-- Pairwise over `filterMap id` from a lifted pairwise over options. -/
theorem pairwise_filterMap_id {α : Type} (R : α → α → Prop)
    (l : List (Option α))
    (h : l.Pairwise (fun oa ob => ∀ a b, oa = some a → ob = some b → R a b)) :
    (l.filterMap id).Pairwise R := by
  induction l with
  | nil => exact List.Pairwise.nil
  | cons o t ih =>
      rcases List.pairwise_cons.mp h with ⟨h1, h2⟩
      cases o with
      | none =>
          simp only [List.filterMap_cons, id]
          exact ih h2
      | some a =>
          simp only [List.filterMap_cons, id]
          refine List.pairwise_cons.mpr ⟨?_, ih h2⟩
          intro b hb
          rcases List.mem_filterMap.mp hb with ⟨ob, hob, he⟩
          simp only [id] at he
          exact h1 ob hob a b rfl he

/-- Destructing a kept breakdown entry. -/
theorem bdEntry_some (n : String) (code descr : Option String) (l : Nat)
    (e : String × String × String × Nat)
    (h : bdEntry n code descr l = some e) :
    ∃ c, code = some c ∧ e.2.1 = c := by
  unfold bdEntry at h
  by_cases ht : (truthy code && truthy descr) = true
  · rw [if_pos ht] at h
    cases h
    simp only [Bool.and_eq_true] at ht
    obtain ⟨ht1, -⟩ := ht
    cases code with
    | none => simp [truthy] at ht1
    | some c => exact ⟨c, rfl, rfl⟩
  · rw [if_neg ht] at h
    cases h

/-- If every ordered pair of set level codes is prefix-related, the
hierarchy breakdown is pairwise prefix-related. -/
theorem bdList_pairwise (res : CRes)
    (h12 : ∀ a b, res.segmentCode = some a → res.familyCode = some b →
      a.data <+: b.data)
    (h13 : ∀ a b, res.segmentCode = some a → res.classCode = some b →
      a.data <+: b.data)
    (h14 : ∀ a b, res.segmentCode = some a → res.commodityCode = some b →
      a.data <+: b.data)
    (h23 : ∀ a b, res.familyCode = some a → res.classCode = some b →
      a.data <+: b.data)
    (h24 : ∀ a b, res.familyCode = some a → res.commodityCode = some b →
      a.data <+: b.data)
    (h34 : ∀ a b, res.classCode = some a → res.commodityCode = some b →
      a.data <+: b.data) :
    (bdList res).Pairwise (fun a b => a.2.1.data <+: b.2.1.data) := by
  unfold bdList
  refine pairwise_filterMap_id _ _ ?_
  have step : ∀ (n1 n2 : String) (c1 c2 d1 d2 : Option String) (l1 l2 : Nat),
      (∀ a b, c1 = some a → c2 = some b → a.data <+: b.data) →
      ∀ e1 e2, bdEntry n1 c1 d1 l1 = some e1 → bdEntry n2 c2 d2 l2 = some e2 →
        e1.2.1.data <+: e2.2.1.data := by
    intro n1 n2 c1 c2 d1 d2 l1 l2 hrel e1 e2 he1 he2
    obtain ⟨a, ha, hea⟩ := bdEntry_some n1 c1 d1 l1 e1 he1
    obtain ⟨b, hb, heb⟩ := bdEntry_some n2 c2 d2 l2 e2 he2
    rw [hea, heb]
    exact hrel a b ha hb
  refine List.pairwise_cons.mpr ⟨?_, List.pairwise_cons.mpr ⟨?_,
    List.pairwise_cons.mpr ⟨?_, List.pairwise_cons.mpr
      ⟨(by intro x hx; cases hx), List.Pairwise.nil⟩⟩⟩⟩
  · intro ob hob a b hsa hsb
    rcases hob with _ | ⟨_, hob⟩
    · exact step _ _ _ _ _ _ _ _ h12 a b hsa hsb
    rcases hob with _ | ⟨_, hob⟩
    · exact step _ _ _ _ _ _ _ _ h13 a b hsa hsb
    rcases hob with _ | ⟨_, hob⟩
    · exact step _ _ _ _ _ _ _ _ h14 a b hsa hsb
    cases hob
  · intro ob hob a b hsa hsb
    rcases hob with _ | ⟨_, hob⟩
    · exact step _ _ _ _ _ _ _ _ h23 a b hsa hsb
    rcases hob with _ | ⟨_, hob⟩
    · exact step _ _ _ _ _ _ _ _ h24 a b hsa hsb
    cases hob
  · intro ob hob a b hsa hsb
    rcases hob with _ | ⟨_, hob⟩
    · exact step _ _ _ _ _ _ _ _ h34 a b hsa hsb
    cases hob

/-- The ancestor codes `_parse_hierarchy_from_commodity_code` extracts, for
an 8-digit commodity code with a nonzero leading digit, assuming the
repository's exact-code row lookup returns the queried code. -/
theorem hierarchy_codes (r : Repo) (c : String) (h : Hier)
    (hanc : ∀ code row, r.commodityRow code = some row →
      zfill row.code 8 = code)
    (hl : c.data.length = 8)
    (hhd : ∀ hd tl, c.data = hd :: tl → hd ≠ '0')
    (hdb : dbGetCommodityWithHierarchy r c = some h) :
    h.seg.code.data = c.data.take 2 ∧ h.fam.code.data = c.data.take 4 ∧
    h.cls.code.data = c.data.take 6 ∧ h.comm.code = c := by
  have hz : zfill c 8 = c := zfill_of_le c 8 (le_of_eq hl.symm)
  unfold dbGetCommodityWithHierarchy at hdb
  rw [hz] at hdb
  cases hrow : r.commodityRow c with
  | none => rw [hrow] at hdb; cases hdb
  | some row =>
      rw [hrow] at hdb
      have hrc : zfill row.code 8 = c := hanc c row hrow
      simp only [Option.some.injEq] at hdb
      have hkey : ∀ k, 0 < k → k ≤ 8 → ∀ (pad : String),
          (strTake (lstripZeros (strTake c k ++ pad)) k).data =
            c.data.take k := by
        intro k hk0 hk8 pad
        cases hcd : c.data with
        | nil => rw [hcd] at hl; simp at hl
        | cons hd tl =>
            have hhd2 : hd ≠ '0' := hhd hd tl hcd
            have hne : (hd == '0') = false := by
              simp only [beq_eq_false_iff_ne, ne_eq]
              exact hhd2
            have htk : (strTake c k).data = hd :: tl.take (k - 1) := by
              simp only [strTake, hcd]
              cases k with
              | zero => omega
              | succ k0 => simp
            have happ : (strTake c k ++ pad).data =
                hd :: (tl.take (k - 1) ++ pad.data) := by
              rw [data_append, htk]
              rfl
            have hdrop : (lstripZeros (strTake c k ++ pad)).data =
                hd :: (tl.take (k - 1) ++ pad.data) := by
              simp only [lstripZeros, happ]
              rw [List.dropWhile_cons]
              simp [hne]
            have htl : tl.length = 7 := by
              rw [hcd] at hl
              simp at hl
              omega
            cases k with
            | zero => omega
            | succ k0 =>
                have hgoal :
                    (strTake (lstripZeros (strTake c (k0 + 1) ++ pad))
                      (k0 + 1)).data =
                    List.take (k0 + 1)
                      (lstripZeros (strTake c (k0 + 1) ++ pad)).data := rfl
                rw [hgoal, hdrop]
                simp only [List.take_succ_cons, Nat.add_sub_cancel]
                congr 1
                rw [List.take_append_of_le_length
                  (by rw [List.length_take]; omega)]
                rw [List.take_take]
                simp
      obtain ⟨hseg, hfam, hcls, hcomm⟩ : h.seg = levelDesc r "SEGMENT"
          (strTake c 2 ++ "000000") ∧
          h.fam = levelDesc r "FAMILY" (strTake c 4 ++ "0000") ∧
          h.cls = levelDesc r "CLASS" (strTake c 6 ++ "00") ∧
          h.comm = ⟨c, if row.description = "" then "Unknown commodity"
            else row.description⟩ := by
        rw [← hdb]
        unfold parseHier
        rw [hrc, hz]
        exact ⟨rfl, rfl, rfl, rfl⟩
      refine ⟨?_, ?_, ?_, by rw [hcomm]⟩
      · rw [hseg]
        exact hkey 2 (by omega) (by omega) "000000"
      · rw [hfam]
        exact hkey 4 (by omega) (by omega) "0000"
      · rw [hcls]
        exact hkey 6 (by omega) (by omega) "00"

/-- `classify_segment` at the chain level: outcome spec. -/
theorem classifySegment_spec (o : Oracle) (r : Repo) (s : String)
    (hs : (classifySegment o r s).success = true) :
    ∃ c, (classifySegment o r s).code = some c ∧ c.data.length = 2 :=
  classifySegmentOn_spec o (dbGetAllSegments r) s hs

/-- `classify_family` at the chain level: outcome spec. -/
theorem classifyFamily_spec (o : Oracle) (r : Repo) (s seg : String)
    (hs : (classifyFamily o r s seg).success = true) :
    ∃ c, (classifyFamily o r s seg).code = some c ∧
      4 ≤ c.data.length ∧ pyStartsWith c (zfill seg 2) = true :=
  classifyFamilyOn_spec o (dbGetFamilies r seg) s seg
    (dbGetFamilies_mem r seg) hs

/-- `classify_class` at the chain level: outcome spec. -/
theorem classifyClass_spec (o : Oracle) (r : Repo) (s fam : String)
    (hs : (classifyClass o r s fam).success = true) :
    ∃ c, (classifyClass o r s fam).code = some c ∧
      6 ≤ c.data.length ∧ pyStartsWith c (zfill fam 4) = true :=
  classifyClassOn_spec o (dbGetClasses r fam) s fam
    (dbGetClasses_mem r fam) hs

/-- `classify_commodity` at the chain level: outcome spec. -/
theorem classifyCommodity_spec (o : Oracle) (r : Repo) (s cls : String)
    (hs : (classifyCommodity o r s cls).success = true) :
    ∃ c, (classifyCommodity o r s cls).code = some c ∧
      8 ≤ c.data.length ∧ pyStartsWith c (zfill cls 6) = true ∧
      (∃ x ∈ dbGetCommodities r cls, x.code = c) ∧
      (∀ h, (classifyCommodity o r s cls).completeHierarchy = some h →
        c.data.length = 8 ∧ dbGetCommodityWithHierarchy r c = some h) :=
  classifyCommodityOn_spec o r (dbGetCommodities r cls) s cls
    (dbGetCommodities_mem r cls) hs

theorem take_pref {α : Type} (l : List α) (m n : Nat) (h : m ≤ n) :
    l.take m <+: l.take n := by
  have : l.take m = (l.take n).take m := by
    rw [List.take_take]
    congr 1
    omega
  rw [this]
  exact List.take_prefix m (l.take n)

/-- C7 amended: under two repository sanity assumptions — the exact-code
ancestors row returns the queried code, and commodity codes have a nonzero
leading digit — every finalized result's hierarchy breakdown is pairwise
prefix-ordered: each level's code is a literal string-prefix of every
deeper level's code.  (The claim's own assumption, that children extend
their parent's code, is enforced by the database layer's filters and needs
no hypothesis.) -/
theorem hierarchy_prefix_invariant (o : Oracle) (r : Repo) (s : String)
    (hanc : ∀ code row, r.commodityRow code = some row →
      zfill row.code 8 = code)
    (hnz : ∀ k c hd tl, c ∈ dbGetCommodities r k → c.code.data = hd :: tl →
      hd ≠ '0') :
    ((classifyProduct o r s).breakdown).Pairwise
      (fun a b => a.2.1.data <+: b.2.1.data) := by
  have hcp : classifyProduct o r s = finalize (perform o r s initRes) := rfl
  rw [hcp, (finalize_fields (perform o r s initRes)).1]
  rcases perform_cases o r s with
    ⟨hs1, hsegc, hsegd, hfamn, hclsn, hcommn, hconf⟩ |
    ⟨hs1, ht1, hsegc, hfamn, hclsn, hcommn⟩ |
    ⟨hs1, ht1, hfs, hsegc, hfamn, hclsn, hcommn⟩ |
    ⟨hs1, ht1, hfs, hft, hsegc, hfamc, hclsn, hcommn⟩ |
    ⟨hs1, ht1, hfs, hft, hcs, hsegc, hfamc, hclsn, hcommn⟩ |
    ⟨hs1, ht1, hfs, hft, hcs, hct, hsegc, hfamc, hclsc, hcommn⟩ |
    ⟨hs1, ht1, hfs, hft, hcs, hct, hu, hsegc, hfamc, hclsc, hcommn, hcommd,
      hconf⟩ |
    ⟨hs1, ht1, hfs, hft, hcs, hct, hu, hhn, hsegc, hfamc, hclsc, hcommc,
      hcommd, hconf⟩ |
    ⟨hh0, hs1, ht1, hfs, hft, hcs, hct, hu, hhier, hsegc, hsegd, hfamc,
      hfamd, hclsc, hclsd, hcommc, hcommd, hconf⟩
  -- D1: segment fallback only
  · refine bdList_pairwise _ ?_ ?_ ?_ ?_ ?_ ?_ <;> intro a b ha hb
    · rw [hfamn] at hb; cases hb
    · rw [hclsn] at hb; cases hb
    · rw [hcommn] at hb; cases hb
    · rw [hfamn] at ha; cases ha
    · rw [hfamn] at ha; cases ha
    · rw [hclsn] at ha; cases ha
  -- D2
  · refine bdList_pairwise _ ?_ ?_ ?_ ?_ ?_ ?_ <;> intro a b ha hb
    · rw [hfamn] at hb; cases hb
    · rw [hclsn] at hb; cases hb
    · rw [hcommn] at hb; cases hb
    · rw [hfamn] at ha; cases ha
    · rw [hfamn] at ha; cases ha
    · rw [hclsn] at ha; cases ha
  -- D3
  · refine bdList_pairwise _ ?_ ?_ ?_ ?_ ?_ ?_ <;> intro a b ha hb
    · rw [hfamn] at hb; cases hb
    · rw [hclsn] at hb; cases hb
    · rw [hcommn] at hb; cases hb
    · rw [hfamn] at ha; cases ha
    · rw [hfamn] at ha; cases ha
    · rw [hclsn] at ha; cases ha
  -- D4: segment + family
  · obtain ⟨sc, hsc, hscl⟩ := classifySegment_spec o r s hs1
    obtain ⟨fc, hfc, hfcl, hfcp⟩ := classifyFamily_spec o r s
      ((classifySegment o r s).code.getD "") hfs
    have hsf : sc.data <+: fc.data := by
      have hget : (classifySegment o r s).code.getD "" = sc := by
        rw [hsc]; rfl
      rw [hget] at hfcp
      rw [zfill_of_le sc 2 (le_of_eq hscl.symm)] at hfcp
      exact (pyStartsWith_iff fc sc).mp hfcp
    refine bdList_pairwise _ ?_ ?_ ?_ ?_ ?_ ?_ <;> intro a b ha hb
    · rw [hsegc, hsc] at ha
      rw [hfamc, hfc] at hb
      cases ha; cases hb
      exact hsf
    · rw [hclsn] at hb; cases hb
    · rw [hcommn] at hb; cases hb
    · rw [hclsn] at hb; cases hb
    · rw [hcommn] at hb; cases hb
    · rw [hclsn] at ha; cases ha
  -- D5: same shape as D4 (class classifier failed)
  · obtain ⟨sc, hsc, hscl⟩ := classifySegment_spec o r s hs1
    obtain ⟨fc, hfc, hfcl, hfcp⟩ := classifyFamily_spec o r s
      ((classifySegment o r s).code.getD "") hfs
    have hsf : sc.data <+: fc.data := by
      have hget : (classifySegment o r s).code.getD "" = sc := by
        rw [hsc]; rfl
      rw [hget] at hfcp
      rw [zfill_of_le sc 2 (le_of_eq hscl.symm)] at hfcp
      exact (pyStartsWith_iff fc sc).mp hfcp
    refine bdList_pairwise _ ?_ ?_ ?_ ?_ ?_ ?_ <;> intro a b ha hb
    · rw [hsegc, hsc] at ha
      rw [hfamc, hfc] at hb
      cases ha; cases hb
      exact hsf
    · rw [hclsn] at hb; cases hb
    · rw [hcommn] at hb; cases hb
    · rw [hclsn] at hb; cases hb
    · rw [hcommn] at hb; cases hb
    · rw [hclsn] at ha; cases ha
  -- D6: segment + family + class, no commodity
  · obtain ⟨sc, hsc, hscl⟩ := classifySegment_spec o r s hs1
    obtain ⟨fc, hfc, hfcl, hfcp⟩ := classifyFamily_spec o r s
      ((classifySegment o r s).code.getD "") hfs
    obtain ⟨cc, hcc, hccl, hccp⟩ := classifyClass_spec o r s
      ((classifyFamily o r s
        ((classifySegment o r s).code.getD "")).code.getD "") hcs
    have hsf : sc.data <+: fc.data := by
      have hget : (classifySegment o r s).code.getD "" = sc := by
        rw [hsc]; rfl
      rw [hget] at hfcp
      rw [zfill_of_le sc 2 (le_of_eq hscl.symm)] at hfcp
      exact (pyStartsWith_iff fc sc).mp hfcp
    have hfcls : fc.data <+: cc.data := by
      have hget : (classifyFamily o r s
          ((classifySegment o r s).code.getD "")).code.getD "" = fc := by
        rw [hfc]; rfl
      rw [hget] at hccp
      rw [zfill_of_le fc 4 hfcl] at hccp
      exact (pyStartsWith_iff cc fc).mp hccp
    refine bdList_pairwise _ ?_ ?_ ?_ ?_ ?_ ?_ <;> intro a b ha hb
    · rw [hsegc, hsc] at ha
      rw [hfamc, hfc] at hb
      cases ha; cases hb
      exact hsf
    · rw [hsegc, hsc] at ha
      rw [hclsc, hcc] at hb
      cases ha; cases hb
      exact hsf.trans hfcls
    · rw [hcommn] at hb; cases hb
    · rw [hfamc, hfc] at ha
      rw [hclsc, hcc] at hb
      cases ha; cases hb
      exact hfcls
    · rw [hcommn] at hb; cases hb
    · rw [hcommn] at hb; cases hb
  -- D7: retreat after reflection (commodity reset to none)
  · obtain ⟨sc, hsc, hscl⟩ := classifySegment_spec o r s hs1
    obtain ⟨fc, hfc, hfcl, hfcp⟩ := classifyFamily_spec o r s
      ((classifySegment o r s).code.getD "") hfs
    obtain ⟨cc, hcc, hccl, hccp⟩ := classifyClass_spec o r s
      ((classifyFamily o r s
        ((classifySegment o r s).code.getD "")).code.getD "") hcs
    have hsf : sc.data <+: fc.data := by
      have hget : (classifySegment o r s).code.getD "" = sc := by
        rw [hsc]; rfl
      rw [hget] at hfcp
      rw [zfill_of_le sc 2 (le_of_eq hscl.symm)] at hfcp
      exact (pyStartsWith_iff fc sc).mp hfcp
    have hfcls : fc.data <+: cc.data := by
      have hget : (classifyFamily o r s
          ((classifySegment o r s).code.getD "")).code.getD "" = fc := by
        rw [hfc]; rfl
      rw [hget] at hccp
      rw [zfill_of_le fc 4 hfcl] at hccp
      exact (pyStartsWith_iff cc fc).mp hccp
    refine bdList_pairwise _ ?_ ?_ ?_ ?_ ?_ ?_ <;> intro a b ha hb
    · rw [hsegc, hsc] at ha
      rw [hfamc, hfc] at hb
      cases ha; cases hb
      exact hsf
    · rw [hsegc, hsc] at ha
      rw [hclsc, hcc] at hb
      cases ha; cases hb
      exact hsf.trans hfcls
    · rw [hcommn] at hb; cases hb
    · rw [hfamc, hfc] at ha
      rw [hclsc, hcc] at hb
      cases ha; cases hb
      exact hfcls
    · rw [hcommn] at hb; cases hb
    · rw [hcommn] at hb; cases hb
  -- D8: commodity committed without hierarchy overwrite
  · obtain ⟨sc, hsc, hscl⟩ := classifySegment_spec o r s hs1
    obtain ⟨fc, hfc, hfcl, hfcp⟩ := classifyFamily_spec o r s
      ((classifySegment o r s).code.getD "") hfs
    obtain ⟨cc, hcc, hccl, hccp⟩ := classifyClass_spec o r s
      ((classifyFamily o r s
        ((classifySegment o r s).code.getD "")).code.getD "") hcs
    obtain ⟨hcsu, hccode, -, -⟩ := reflect_commit s _ hu
    obtain ⟨mc, hmc, hmcl, hmcp, -, -⟩ := classifyCommodity_spec o r s
      ((classifyClass o r s
        ((classifyFamily o r s
          ((classifySegment o r s).code.getD "")).code.getD "")).code.getD "")
      hcsu
    have hsf : sc.data <+: fc.data := by
      have hget : (classifySegment o r s).code.getD "" = sc := by
        rw [hsc]; rfl
      rw [hget] at hfcp
      rw [zfill_of_le sc 2 (le_of_eq hscl.symm)] at hfcp
      exact (pyStartsWith_iff fc sc).mp hfcp
    have hfcls : fc.data <+: cc.data := by
      have hget : (classifyFamily o r s
          ((classifySegment o r s).code.getD "")).code.getD "" = fc := by
        rw [hfc]; rfl
      rw [hget] at hccp
      rw [zfill_of_le fc 4 hfcl] at hccp
      exact (pyStartsWith_iff cc fc).mp hccp
    have hclsm : cc.data <+: mc.data := by
      have hget : (classifyClass o r s
          ((classifyFamily o r s
            ((classifySegment o r s).code.getD "")).code.getD "")).code.getD ""
          = cc := by
        rw [hcc]; rfl
      rw [hget] at hmcp
      rw [zfill_of_le cc 6 hccl] at hmcp
      exact (pyStartsWith_iff mc cc).mp hmcp
    refine bdList_pairwise _ ?_ ?_ ?_ ?_ ?_ ?_ <;> intro a b ha hb
    · rw [hsegc, hsc] at ha
      rw [hfamc, hfc] at hb
      cases ha; cases hb
      exact hsf
    · rw [hsegc, hsc] at ha
      rw [hclsc, hcc] at hb
      cases ha; cases hb
      exact hsf.trans hfcls
    · rw [hcommc, hccode, hmc] at hb
      rw [hsegc, hsc] at ha
      cases ha; cases hb
      exact (hsf.trans hfcls).trans hclsm
    · rw [hfamc, hfc] at ha
      rw [hclsc, hcc] at hb
      cases ha; cases hb
      exact hfcls
    · rw [hfamc, hfc] at ha
      rw [hcommc, hccode, hmc] at hb
      cases ha; cases hb
      exact hfcls.trans hclsm
    · rw [hclsc, hcc] at ha
      rw [hcommc, hccode, hmc] at hb
      cases ha; cases hb
      exact hclsm
  -- D9: hierarchy overwrite from the committed commodity's ancestors
  · obtain ⟨hcsu, hccode, -, hchier⟩ := reflect_commit s _ hu
    obtain ⟨mc, hmc, hmcl, hmcp, ⟨x, hx, hxc⟩, hhspec⟩ :=
      classifyCommodity_spec o r s
      ((classifyClass o r s
        ((classifyFamily o r s
          ((classifySegment o r s).code.getD "")).code.getD "")).code.getD "")
      hcsu
    have hcomph : (classifyCommodity o r s
        ((classifyClass o r s
          ((classifyFamily o r s
            ((classifySegment o r s).code.getD "")).code.getD "")).code.getD
              "")).completeHierarchy = some hh0 := by
      rw [← hchier]
      exact hhier
    obtain ⟨hmc8, hdbh⟩ := hhspec hh0 hcomph
    have hhd : ∀ hd tl, mc.data = hd :: tl → hd ≠ '0' := by
      intro hd tl hmcd
      refine hnz _ x hd tl hx ?_
      rw [hxc]
      exact hmcd
    obtain ⟨hsegd9, hfamd9, hclsd9, hcommd9⟩ :=
      hierarchy_codes r mc hh0 hanc hmc8 hhd hdbh
    refine bdList_pairwise _ ?_ ?_ ?_ ?_ ?_ ?_ <;> intro a b ha hb
    · rw [hsegc] at ha
      rw [hfamc] at hb
      cases ha; cases hb
      rw [hsegd9, hfamd9]
      exact take_pref mc.data 2 4 (by omega)
    · rw [hsegc] at ha
      rw [hclsc] at hb
      cases ha; cases hb
      rw [hsegd9, hclsd9]
      exact take_pref mc.data 2 6 (by omega)
    · rw [hsegc] at ha
      rw [hcommc, hccode, hmc] at hb
      cases ha; cases hb
      rw [hsegd9]
      exact List.take_prefix 2 mc.data
    · rw [hfamc] at ha
      rw [hclsc] at hb
      cases ha; cases hb
      rw [hfamd9, hclsd9]
      exact take_pref mc.data 4 6 (by omega)
    · rw [hfamc] at ha
      rw [hcommc, hccode, hmc] at hb
      cases ha; cases hb
      rw [hfamd9]
      exact List.take_prefix 4 mc.data
    · rw [hclsc] at ha
      rw [hcommc, hccode, hmc] at hb
      cases ha; cases hb
      rw [hclsd9]
      exact List.take_prefix 6 mc.data

/-- C7 counterexample: on a taxonomy with a leading-zero segment (children
still extend their parents, as the claim assumes), the finalized breakdown
has four levels whose codes are NOT prefix-ordered: the ancestors-overwrite
computes them via `lstrip('0')`, turning segment "01" into "10", family
"0110" into "1100" and class "011015" into "110150". -/
theorem prefix_invariant_leading_zero_cex :
    (classifyProduct zeroOracle zeroRepo "anything").breakdown =
      [("segment", "10", "Unknown segment", 1),
       ("family", "1100", "Unknown family", 2),
       ("class", "110150", "Unknown class", 3),
       ("commodity", "01101501", "delta", 4)] ∧
    ¬ (((classifyProduct zeroOracle zeroRepo "anything").breakdown).Pairwise
        (fun a b => a.2.1.data <+: b.2.1.data)) := by
  have hbd : (classifyProduct zeroOracle zeroRepo "anything").breakdown =
      [("segment", "10", "Unknown segment", 1),
       ("family", "1100", "Unknown family", 2),
       ("class", "110150", "Unknown class", 3),
       ("commodity", "01101501", "delta", 4)] := by decide
  refine ⟨hbd, ?_⟩
  rw [hbd]
  intro hpw
  have h12 := (List.pairwise_cons.mp hpw).1
    ("family", "1100", "Unknown family", 2) (by simp)
  have : ¬ (("10" : String).data <+: ("1100" : String).data) := by decide
  exact this h12

theorem pumpRepo_anc : ∀ code row, pumpRepo.commodityRow code = some row →
    zfill row.code 8 = code := by
  intro code row h
  by_cases hc : code = "40151501"
  · subst hc
    simp only [pumpRepo, if_pos] at h
    cases h
    rfl
  · simp only [pumpRepo, if_neg hc] at h
    cases h

theorem pumpRepo_nz : ∀ k c hd tl, c ∈ dbGetCommodities pumpRepo k →
    c.code.data = hd :: tl → hd ≠ '0' := by
  intro k c hd tl hc hcd
  unfold dbGetCommodities at hc
  rw [List.mem_filter] at hc
  obtain ⟨hc1, -⟩ := hc
  simp only [pumpRepo, List.map_cons, List.map_nil,
    List.mem_singleton] at hc1
  subst hc1
  have hdd : (zfill "40151501" 8).data
      = '4' :: ("0151501" : String).data := by decide
  rw [hdd] at hcd
  injection hcd with h1 h2
  rw [← h1]
  decide

/-- Witness for the amended C7 on the pump taxonomy. -/
theorem hierarchy_prefix_invariant_witness :
    ((classifyProduct pumpOracle pumpRepo
      "hydraulic gear pump").breakdown).Pairwise
        (fun a b => a.2.1.data <+: b.2.1.data) :=
  hierarchy_prefix_invariant pumpOracle pumpRepo "hydraulic gear pump"
    pumpRepo_anc pumpRepo_nz

/-! ## Cache coherence and idempotence -/

theorem fetchSegments_ok (r : Repo) (st : Option (List Cand))
    (h : st = none ∨ st = some (dbGetAllSegments r)) :
    (fetchSegments r st).1 = dbGetAllSegments r ∧
    (fetchSegments r st).2 = some (dbGetAllSegments r) := by
  rcases h with h | h <;> (subst h; exact ⟨rfl, rfl⟩)

theorem fetchKeyed_ok (f : String → List Cand)
    (st : List (String × List Cand)) (k : String)
    (h : ∀ p ∈ st, p.2 = f p.1) :
    (fetchKeyed f st k).1 = f k ∧
    (∀ p ∈ (fetchKeyed f st k).2, p.2 = f p.1) := by
  unfold fetchKeyed
  cases hf : st.find? (fun p => p.1 == k) with
  | none =>
      refine ⟨rfl, ?_⟩
      intro p hp
      rcases List.mem_append.mp hp with h1 | h1
      · exact h p h1
      · simp only [List.mem_singleton] at h1
        rw [h1]
  | some p =>
      have hpk : p.1 = k := by
        have := List.find?_some hf
        exact beq_iff_eq.mp this
      have hpm := List.mem_of_find?_eq_some hf
      refine ⟨?_, h⟩
      show p.2 = f k
      rw [h p hpm, hpk]

theorem classifySegmentC_eq (o : Oracle) (r : Repo) (st : ChainState)
    (s : String) (hok : CacheOK r st) :
    ∃ st', classifySegmentC o r st s = (classifySegment o r s, st') ∧
      CacheOK r st' := by
  obtain ⟨h1, h2⟩ := fetchSegments_ok r st.segCache hok.1
  refine ⟨{ st with segCache := some (dbGetAllSegments r) }, ?_, ?_⟩
  · have he : classifySegmentC o r st s =
        (classifySegmentOn o (fetchSegments r st.segCache).1 s,
         { st with segCache := (fetchSegments r st.segCache).2 }) := rfl
    rw [he, h1, h2]
    rfl
  · exact ⟨Or.inr rfl, hok.2.1, hok.2.2.1, hok.2.2.2⟩

theorem segmentFallbackC_eq (r : Repo) (st : ChainState) (s : String)
    (hok : CacheOK r st) :
    ∃ st', segmentFallbackC r st s =
      (segmentFallback (dbGetAllSegments r) s, st') ∧ CacheOK r st' := by
  obtain ⟨h1, h2⟩ := fetchSegments_ok r st.segCache hok.1
  refine ⟨{ st with segCache := some (dbGetAllSegments r) }, ?_, ?_⟩
  · have he : segmentFallbackC r st s =
        (segmentFallback (fetchSegments r st.segCache).1 s,
         { st with segCache := (fetchSegments r st.segCache).2 }) := rfl
    rw [he, h1, h2]
  · exact ⟨Or.inr rfl, hok.2.1, hok.2.2.1, hok.2.2.2⟩

theorem classifyFamilyC_eq (o : Oracle) (r : Repo) (st : ChainState)
    (s seg : String) (hok : CacheOK r st) :
    ∃ st', classifyFamilyC o r st s seg = (classifyFamily o r s seg, st') ∧
      CacheOK r st' := by
  obtain ⟨h1, h2⟩ := fetchKeyed_ok (dbGetFamilies r) st.famCache seg hok.2.1
  refine ⟨{ st with famCache := (fetchKeyed (dbGetFamilies r)
    st.famCache seg).2 }, ?_, ?_⟩
  · have he : classifyFamilyC o r st s seg =
        (classifyFamilyOn o (fetchKeyed (dbGetFamilies r) st.famCache seg).1
          s seg,
         { st with famCache :=
            (fetchKeyed (dbGetFamilies r) st.famCache seg).2 }) := rfl
    rw [he, h1]
    rfl
  · exact ⟨hok.1, h2, hok.2.2.1, hok.2.2.2⟩

theorem classifyClassC_eq (o : Oracle) (r : Repo) (st : ChainState)
    (s fam : String) (hok : CacheOK r st) :
    ∃ st', classifyClassC o r st s fam = (classifyClass o r s fam, st') ∧
      CacheOK r st' := by
  obtain ⟨h1, h2⟩ := fetchKeyed_ok (dbGetClasses r) st.clsCache fam
    hok.2.2.1
  refine ⟨{ st with clsCache := (fetchKeyed (dbGetClasses r)
    st.clsCache fam).2 }, ?_, ?_⟩
  · have he : classifyClassC o r st s fam =
        (classifyClassOn o (fetchKeyed (dbGetClasses r) st.clsCache fam).1
          s fam,
         { st with clsCache :=
            (fetchKeyed (dbGetClasses r) st.clsCache fam).2 }) := rfl
    rw [he, h1]
    rfl
  · exact ⟨hok.1, hok.2.1, h2, hok.2.2.2⟩

theorem classifyCommodityC_eq (o : Oracle) (r : Repo) (st : ChainState)
    (s cls : String) (hok : CacheOK r st) :
    ∃ st', classifyCommodityC o r st s cls =
      (classifyCommodity o r s cls, st') ∧ CacheOK r st' := by
  obtain ⟨h1, h2⟩ := fetchKeyed_ok (dbGetCommodities r) st.comCache cls
    hok.2.2.2
  refine ⟨{ st with comCache := (fetchKeyed (dbGetCommodities r)
    st.comCache cls).2 }, ?_, ?_⟩
  · have he : classifyCommodityC o r st s cls =
        (classifyCommodityOn o r
          (fetchKeyed (dbGetCommodities r) st.comCache cls).1 s cls,
         { st with comCache :=
            (fetchKeyed (dbGetCommodities r) st.comCache cls).2 }) := rfl
    rw [he, h1]
    rfl
  · exact ⟨hok.1, hok.2.1, hok.2.2.1, h2⟩

/-- The cached chain computes the same result as the pure chain and
preserves cache coherence. -/
theorem performC_eq (o : Oracle) (r : Repo) (s : String) (st : ChainState)
    (hok : CacheOK r st) :
    ∃ st', performC o r st s initRes = (perform o r s initRes, st') ∧
      CacheOK r st' := by
  obtain ⟨st1, hseg, hok1⟩ := classifySegmentC_eq o r st s hok
  by_cases h1 : (classifySegment o r s).success = true
  · by_cases h2 : truthy (classifySegment o r s).code = true
    · obtain ⟨st2, hfam, hok2⟩ := classifyFamilyC_eq o r st1 s
        ((classifySegment o r s).code.getD "") hok1
      by_cases h3 : (classifyFamily o r s
          ((classifySegment o r s).code.getD "")).success = true
      · by_cases h4 : truthy (classifyFamily o r s
            ((classifySegment o r s).code.getD "")).code = true
        · obtain ⟨st3, hcls, hok3⟩ := classifyClassC_eq o r st2 s
            ((classifyFamily o r s
              ((classifySegment o r s).code.getD "")).code.getD "") hok2
          by_cases h5 : (classifyClass o r s
              ((classifyFamily o r s
                ((classifySegment o r s).code.getD "")).code.getD
                  "")).success = true
          · by_cases h6 : truthy (classifyClass o r s
                ((classifyFamily o r s
                  ((classifySegment o r s).code.getD "")).code.getD
                    "")).code = true
            · obtain ⟨st4, hcom, hok4⟩ := classifyCommodityC_eq o r st3 s
                ((classifyClass o r s
                  ((classifyFamily o r s
                    ((classifySegment o r s).code.getD "")).code.getD
                      "")).code.getD "") hok3
              refine ⟨st4, ?_, hok4⟩
              simp only [performC, perform, performWith, hseg, hfam, hcls,
                hcom, h1, h2, h3, h4, h5, h6, if_true]
            · refine ⟨st3, ?_, hok3⟩
              simp only [Bool.not_eq_true] at h6
              simp only [performC, perform, performWith, hseg, hfam, hcls,
                h1, h2, h3, h4, h5, h6, if_true, Bool.false_eq_true,
                if_false]
          · refine ⟨st3, ?_, hok3⟩
            simp only [Bool.not_eq_true] at h5
            simp only [performC, perform, performWith, hseg, hfam, hcls,
              h1, h2, h3, h4, h5, if_true, Bool.false_eq_true, if_false]
        · refine ⟨st2, ?_, hok2⟩
          simp only [Bool.not_eq_true] at h4
          simp only [performC, perform, performWith, hseg, hfam, h1, h2,
            h3, h4, if_true, Bool.false_eq_true, if_false]
      · refine ⟨st2, ?_, hok2⟩
        simp only [Bool.not_eq_true] at h3
        simp only [performC, perform, performWith, hseg, hfam, h1, h2, h3,
          if_true, Bool.false_eq_true, if_false]
    · refine ⟨st1, ?_, hok1⟩
      simp only [Bool.not_eq_true] at h2
      simp only [performC, perform, performWith, hseg, h1, h2, if_true,
        Bool.false_eq_true, if_false]
  · obtain ⟨st2, hfb, hok2⟩ := segmentFallbackC_eq r st1 s hok1
    refine ⟨st2, ?_, hok2⟩
    simp only [Bool.not_eq_true] at h1
    simp only [performC, perform, performWith, hseg, hfb, h1,
      Bool.false_eq_true, if_false]
    split <;> rfl

/-- The cached `classify_product` equals the pure one. -/
theorem classifyProductC_eq (o : Oracle) (r : Repo) (s : String)
    (st : ChainState) (hok : CacheOK r st) :
    ∃ st', classifyProductC o r st s = (classifyProduct o r s, st') ∧
      CacheOK r st' := by
  obtain ⟨st', hp, hok'⟩ := performC_eq o r s st hok
  refine ⟨st', ?_, hok'⟩
  have he : classifyProductC o r st s =
      (finalize (performC o r st s initRes).1, (performC o r st s initRes).2)
      := rfl
  rw [he, hp]
  rfl

/-- C8: with a deterministic oracle and a fixed taxonomy snapshot, a second
`classify_product` call on the same chain (whose caches the first call
populated) returns a result identical to the first call's. -/
theorem classify_idempotent (o : Oracle) (r : Repo) (s : String)
    (st0 : ChainState) (hok : CacheOK r st0) :
    (classifyProductC o r (classifyProductC o r st0 s).2 s).1 =
      (classifyProductC o r st0 s).1 := by
  obtain ⟨st1, he1, hok1⟩ := classifyProductC_eq o r s st0 hok
  obtain ⟨st2, he2, -⟩ := classifyProductC_eq o r s st1 hok1
  rw [he1]
  simp only [he2]

/-- Witness for C8: two successive calls on a fresh chain agree. -/
theorem classify_idempotent_witness :
    (classifyProductC pumpOracle pumpRepo
      (classifyProductC pumpOracle pumpRepo {} "hydraulic gear pump").2
      "hydraulic gear pump").1 =
    (classifyProductC pumpOracle pumpRepo {} "hydraulic gear pump").1 :=
  classify_idempotent pumpOracle pumpRepo "hydraulic gear pump" {}
    ⟨Or.inl rfl, (by intro p hp; cases hp), (by intro p hp; cases hp),
     (by intro p hp; cases hp)⟩

/-- Witness for the amended C6: with a CONFUSED Family oracle the result
halts at the Segment level, committing no family, class or commodity. -/
theorem confused_handling_witness :
    (classifyProduct confusedFamOracle oneSegRepo
      "industrial pump").familyCode = none ∧
    (classifyProduct confusedFamOracle oneSegRepo
      "industrial pump").classCode = none ∧
    (classifyProduct confusedFamOracle oneSegRepo
      "industrial pump").commodityCode = none :=
  confused_handling.2.2.2.2.1 confusedFamOracle oneSegRepo "industrial pump"
    (fun _ _ => ⟨⟨none, some "CONFUSED", none⟩, rfl, by decide⟩)

end UNSPSC
